import Mathlib

/-!
# Netdata: ACLK sync helpers and the dynamic-configuration tree

A shallow embedding of

* `src/database/sqlite/sqlite_aclk.h`: the completion handle, the UUID
  table-name suffix, the chart staging table with its upsert trigger, and
  the lookup of a host by its node id;
* `src/daemon/config/dyncfg-tree.c`: the comparator, the node descriptor,
  the tree snapshot and the `config` function callback.

C strings are Lean strings (the terminating NUL is not stored), C pointers
that may be NULL are `Option`s, and a JSON buffer is the sequence of the
`buffer_json_*` calls made on it.
-/

namespace Netdata

/-! ## Completion handle (`sqlite_aclk.h`, lines 22-57) -/

/-- The struct aclk_completion. The mutex and the condition variable carry no
data of their own; the state of the handle is the `completed` flag. -/
structure aclk_completion where
  completed : Nat
deriving DecidableEq, Repr

/-- The function init_aclk_completion: stores 0 in the flag, then asserts that
`uv_cond_init` and `uv_mutex_init` (whose return codes are the two extra
arguments) both returned 0. `none` is the fatal assertion. -/
def init_aclk_completion (_p : aclk_completion) (cond_rc mutex_rc : Int) :
    Option aclk_completion :=
  let p : aclk_completion := { completed := 0 }
  if 0 ≠ cond_rc then none
  else if 0 ≠ mutex_rc then none
  else some p

/-- The function aclk_complete: under the mutex, stores 1 in the flag. -/
def aclk_complete (_p : aclk_completion) : aclk_completion :=
  { completed := 1 }

/-- How a call of wait_for_aclk_completion ends. -/
inductive WaitOutcome where
  /-- The loop exited and the assertion held: the call returns, after `waits`
  calls of `uv_cond_wait`. -/
  | returned (p : aclk_completion) (waits : Nat)
  /-- The loop exited and `fatal_assert(1 == p->completed)` failed. -/
  | assert_failed (p : aclk_completion)
  /-- The caller is still suspended in `uv_cond_wait`: nobody wakes it. -/
  | blocked (p : aclk_completion) (waits : Nat)
deriving DecidableEq, Repr

/-- The loop `while (0 == p->completed) uv_cond_wait(...)` followed by the
assertion. The mutex is released only inside `uv_cond_wait`; `wakeups` lists,
for each successive wait, how many times another thread ran `aclk_complete`
before the waiter was woken. When the list is exhausted nobody wakes the
waiter any more. -/
def wait_loop : List Nat → aclk_completion → Nat → WaitOutcome
  | wakeups, p, waits =>
    if 0 = p.completed then
      match wakeups with
      | [] => .blocked p waits
      | k :: rest => wait_loop rest (aclk_complete^[k] p) (waits + 1)
    else if 1 = p.completed then .returned p waits
    else .assert_failed p

/-- The function wait_for_aclk_completion. -/
def wait_for_aclk_completion (wakeups : List Nat) (p : aclk_completion) : WaitOutcome :=
  wait_loop wakeups p 0

/-! ## UUIDs (`uuid_t` of libuuid) -/

/-- The type uuid_t: an array of 16 unsigned bytes. -/
abbrev uuid_t := { l : List (Fin 256) // l.length = 16 }

/-- One lower-case hexadecimal digit, the table "0123456789abcdef". -/
def hexdigit (n : Nat) : Char :=
  if n < 10 then Char.ofNat (48 + n) else Char.ofNat (87 + n)

/-- The formatting loop of libuuid: two hexadecimal digits per byte, with a
hyphen before the bytes of index 4, 6, 8 and 10. `i` is the index of the first
byte of the list. -/
def uuid_fmt : Nat → List (Fin 256) → List Char
  | _, [] => []
  | i, b :: rest =>
    (if i = 4 ∨ i = 6 ∨ i = 8 ∨ i = 10 then [ '-' ] else []) ++
      [hexdigit (b.val / 16), hexdigit (b.val % 16)] ++ uuid_fmt (i + 1) rest

/-- The libuuid function uuid_unparse_lower: the 36 characters of the canonical
lower-case text (the terminating NUL is not stored). -/
def uuid_unparse_lower (uuid : uuid_t) : List Char :=
  uuid_fmt 0 uuid.val

/-- The function uuid_unparse_lower_fix: the canonical text with `out[8]`,
`out[13]`, `out[18]` and `out[23]` overwritten by an underscore. -/
def uuid_unparse_lower_fix (uuid : uuid_t) : List Char :=
  let out := uuid_unparse_lower uuid
  let out := out.set 8 '_'
  let out := out.set 13 '_'
  let out := out.set 18 '_'
  let out := out.set 23 '_'
  out

/-- A character of the alphabet of the table-name suffix: a digit, a letter from
a to f, or the underscore. -/
def suffix_char (c : Char) : Bool :=
  ('0' ≤ c && c ≤ '9') || ('a' ≤ c && c ≤ 'f') || c == '_'

/-- The C library predicate isxdigit. -/
def isxdigit (c : Char) : Bool :=
  ('0' ≤ c && c ≤ '9') || ('a' ≤ c && c ≤ 'f') || ('A' ≤ c && c ≤ 'F')

/-- The value of a hexadecimal digit. -/
def hexval (c : Char) : Nat :=
  if '0' ≤ c ∧ c ≤ '9' then c.toNat - 48
  else if 'a' ≤ c ∧ c ≤ 'f' then c.toNat - 87
  else c.toNat - 55

/-- The validation loop of uuid_parse: a hyphen at the indexes 8, 13, 18 and 23,
a hexadecimal digit everywhere else. -/
def uuid_text_ok : Nat → List Char → Bool
  | _, [] => true
  | i, c :: rest =>
    (if i = 8 ∨ i = 13 ∨ i = 18 ∨ i = 23 then c == '-' else isxdigit c) &&
      uuid_text_ok (i + 1) rest

/-- Pairs of hexadecimal digits to bytes. -/
def hex_bytes : List Char → List (Fin 256)
  | hi :: lo :: rest => Fin.ofNat ((hexval hi) * 16 + hexval lo) :: hex_bytes rest
  | _ => []

/-- The libuuid function uuid_parse: `none` is the return value -1, in which
case the output array is not written. -/
def uuid_parse (text : String) : Option uuid_t :=
  if text.data.length ≠ 36 then none
  else if !uuid_text_ok 0 text.data then none
  else
    let bytes := hex_bytes (text.data.filter (fun c => c != '-'))
    if h : bytes.length = 16 then some ⟨bytes, h⟩ else none

/-- The libuuid function uuid_compare: the sign of the first differing byte. -/
def uuid_compare_bytes : List (Fin 256) → List (Fin 256) → Int
  | x :: xs, y :: ys => if x < y then -1 else if y < x then 1 else uuid_compare_bytes xs ys
  | _, _ => 0

/-- The libuuid function uuid_compare on two arrays of 16 bytes. -/
def uuid_compare (a b : uuid_t) : Int :=
  uuid_compare_bytes a.val b.val

/-! ## Lookup of a host by node id (`sqlite_aclk.h`, lines 197-212) -/

/-- The fields of RRDHOST that the code reads. `addr` is the address of the
object: a pointer to a host is its address, and two pointers are equal when
the addresses are. The `next` pointer is the tail of the list the host is in. -/
structure RRDHOST where
  addr : Nat
  hostname : String
  host_uuid : uuid_t
  node_id : Option uuid_t
deriving DecidableEq

/-- The loop `while(host)` of find_host_by_node_id. -/
def find_host_loop (node_uuid : uuid_t) : List RRDHOST → Option RRDHOST
  | [] => none
  | host :: next =>
    match host.node_id with
    | some id => if uuid_compare id node_uuid = 0 then some host else find_host_loop node_uuid next
    | none => find_host_loop node_uuid next

/-- The function find_host_by_node_id. The local `node_uuid` is declared without
an initialiser and the return value of `uuid_parse` is not looked at, so after
a failed parse the loop compares against whatever the 16 bytes of the stack
slot hold; `stack` is that content. `hosts` is the list starting at
`localhost`. -/
def find_host_by_node_id (stack : uuid_t) (node_id : Option String)
    (hosts : List RRDHOST) : Option RRDHOST :=
  match node_id with
  | none => none
  | some text =>
    let node_uuid := match uuid_parse text with
      | some u => u
      | none => stack
    find_host_loop node_uuid hosts

/-! ## Chart staging table (`sqlite_aclk.h`, lines 85-100)

`TABLE_ACLK_CHART` declares its columns without a type and without `NOT NULL`,
so every column but the integer primary key may hold NULL (`none`). Integers
are the 64-bit signed integers of SQLite. -/

/-- The largest 64-bit signed integer, 2^63 - 1: the largest rowid and the
largest integer value of SQLite. -/
def LARGEST_INT64 : Int := 9223372036854775807

/-- A value of the column `update_count`: NULL, a 64-bit integer, or the REAL
9223372036854775808.0 that SQLite produces when adding to an integer
overflows. These are the values that the default 1 and the increments of the
trigger produce from NULL or an integer. -/
inductive update_count_value where
  | null
  | integer (i : Int)
  | real
deriving DecidableEq, Repr

/-- The SQL expression `update_count + 1`: NULL stays NULL; an integer below the
largest one grows by 1; the largest integer overflows to the REAL 2^63, and
adding 1 to that REAL rounds back to it. -/
def update_count_add_one : update_count_value → update_count_value
  | .null => .null
  | .integer i => if i < LARGEST_INT64 then .integer (i + 1) else .real
  | .real => .real

/-- A row of the table aclk_chart created by TABLE_ACLK_CHART. The rowid
`sequence_id` is a 64-bit integer and never NULL. -/
structure aclk_chart_row where
  sequence_id : Int
  date_created : Option Int
  date_updated : Option Int
  date_submitted : Option Int
  status : Option String
  uuid : Option uuid_t
  type : Option Int
  unique_id : Option uuid_t
  update_count : update_count_value
deriving DecidableEq

/-- A row of the table aclk_chart_payload created by TABLE_ACLK_CHART_PAYLOAD:
the `new` row of the trigger. -/
structure aclk_chart_payload_row where
  unique_id : Option uuid_t
  uuid : Option uuid_t
  claim_id : Option String
  type : Option Int
  date_created : Option Int
  payload : Option String
deriving DecidableEq

/-- The table aclk_chart: its rows in insertion order and the counter that
`AUTOINCREMENT` keeps in `sqlite_sequence` (0 when the table has no entry
there). -/
structure aclk_chart_table where
  rows : List aclk_chart_row
  seq : Int

/-- The largest rowid of the table, none when the table is empty. -/
def largest_rowid : List aclk_chart_row → Option Int
  | [] => none
  | r :: rest =>
    match largest_rowid rest with
    | none => some r.sequence_id
    | some m => some (max r.sequence_id m)

/-- The rowid that an insert into the `AUTOINCREMENT` table is given, before any
constraint is checked: one more than the largest rowid of the table (1 for an
empty table), raised to one more than the counter of `sqlite_sequence`. When
the largest rowid or the counter is the largest integer there is none, and the
statement fails with SQLITE_FULL. -/
def aclk_chart_new_rowid (t : aclk_chart_table) : Option Int :=
  let v : Option Int :=
    match largest_rowid t.rows with
    | none => some 1
    | some m => if m ≥ LARGEST_INT64 then none else some (m + 1)
  match v with
  | none => none
  | some v =>
    if t.seq = LARGEST_INT64 then none
    else some (if v < t.seq + 1 then t.seq + 1 else v)

/-- The conflict test of `unique(uuid, status)` between a stored row and the row
the trigger tries to insert, whose status is the text pending. SQL never takes
two NULLs for equal, so a NULL uuid conflicts with nothing. -/
def conflicts_pending (uuid : Option uuid_t) (r : aclk_chart_row) : Bool :=
  uuid.isSome && r.uuid == uuid && r.status == some "pending"

/-- The constraint `unique(uuid, status)`: no two rows agree on a non-NULL uuid
and a non-NULL status. -/
def unique_uuid_status (rows : List aclk_chart_row) : Prop :=
  rows.Pairwise (fun a b =>
    ¬ (a.uuid.isSome ∧ a.status.isSome ∧ a.uuid = b.uuid ∧ a.status = b.status))

/-- The `do update set unique_id = new.unique_id, update_count = update_count + 1`
of the trigger, on the row in conflict. -/
def do_update (new : aclk_chart_payload_row) (r : aclk_chart_row) : aclk_chart_row :=
  { r with unique_id := new.unique_id,
           update_count := update_count_add_one r.update_count }

/-- The body of the trigger TRIGGER_ACLK_CHART_PAYLOAD, run after `new` was
inserted into the payload table at the time `now` (the value of
`strftime('%s')`): insert a pending row for `new.uuid`, or on a conflict over
`(uuid, status)` update the row in conflict instead. The rowid of the insert
is drawn first, and `sqlite_sequence` records it on both paths; when there is
none the statement fails with SQLITE_FULL and nothing changes (`none`). A new
row gets that rowid, the default 1 for `update_count` and NULL in the columns
the insert does not name. -/
def trigger_aclk_chart_payload (now : Int) (new : aclk_chart_payload_row)
    (t : aclk_chart_table) : Option aclk_chart_table :=
  match aclk_chart_new_rowid t with
  | none => none
  | some sequence_id =>
    if t.rows.any (conflicts_pending new.uuid) then
      some { rows := t.rows.map (fun r =>
                       if conflicts_pending new.uuid r then do_update new r else r),
             seq := sequence_id }
    else
      some { rows := t.rows ++ [{ sequence_id := sequence_id,
                                  date_created := some now,
                                  date_updated := none,
                                  date_submitted := none,
                                  status := some "pending",
                                  uuid := new.uuid,
                                  type := new.type,
                                  unique_id := new.unique_id,
                                  update_count := .integer 1 }],
             seq := sequence_id }

/-! ## C strings

The C standard fixes only the sign of the result of `strcmp` and `strncmp`;
the models return -1, 0 or 1. A string that ends is smaller than one that goes
on. Characters compare by their code, which for the bytes of ASCII text is the
comparison of `unsigned char`. -/

/-- The C library function strcmp on the characters of two strings. -/
def strcmp_chars : List Char → List Char → Int
  | [], [] => 0
  | [], _ :: _ => -1
  | _ :: _, [] => 1
  | a :: as, b :: bs => if a < b then -1 else if b < a then 1 else strcmp_chars as bs

/-- The C library function strcmp. -/
def strcmp (a b : String) : Int := strcmp_chars a.data b.data

/-- The C library function strncmp on the characters of two strings: at most
`n` characters are compared. -/
def strncmp_chars : List Char → List Char → Nat → Int
  | _, _, 0 => 0
  | [], [], _ + 1 => 0
  | [], _ :: _, _ + 1 => -1
  | _ :: _, [], _ + 1 => 1
  | a :: as, b :: bs, n + 1 =>
    if a < b then -1 else if b < a then 1 else strncmp_chars as bs n

/-- The C library function strncmp. -/
def strncmp (a b : String) (n : Nat) : Int := strncmp_chars a.data b.data n

/-- The C library function strlen. -/
def strlen (a : String) : Nat := a.data.length

/-- The libnetdata function string_cmp on two interned strings: 0 when the two
handles are the same, the result of strcmp on their contents otherwise. Equal
contents have the same handle, so this is strcmp on the contents. -/
def string_cmp (a b : String) : Int := strcmp a b

/-- The libuuid-style helper uuid_memcmp: memcmp over the 16 bytes. -/
def uuid_memcmp (a b : uuid_t) : Int := uuid_compare_bytes a.val b.val

/-! ## Dynamic configuration nodes (`dyncfg-tree.c`)

The declarations of `dyncfg.h` and `dyncfg-internals.h` are not part of the
sources; the types below carry the fields and the enumeration values that
`dyncfg-tree.c` names. -/

/-- The enumeration DYNCFG_STATUS: the three values that the code names, and
`OTHER n` for every other value of the enumeration. -/
inductive DYNCFG_STATUS where
  | ORPHAN
  | FAILED
  | INCOMPLETE
  | OTHER (n : Nat)
deriving DecidableEq, Repr

/-- The payload buffer of a node, as far as the descriptor reads it. -/
structure PAYLOAD where
  len : Nat
  content_type : Nat
deriving DecidableEq, Repr

/-- The struct DYNCFG: a configuration node. `host` is a pointer to a host or
NULL. The strings `path`, `function` and `source` are interned handles: two
handles are the same pointer exactly when the contents are equal, and the path
of a node is never NULL. -/
structure DYNCFG where
  host : Option Nat
  host_uuid : uuid_t
  path : String
  function : String
  status : DYNCFG_STATUS
  type : Nat
  cmds : Nat
  source_type : Nat
  source : String
  sync : Bool
  user_disabled : Bool
  restart_required : Bool
  plugin_rejected : Bool
  payload : Option PAYLOAD
  saves : Nat
  created_ut : Nat
  modified_ut : Nat
deriving DecidableEq

/-- An item of the dictionary `dyncfg_globals.nodes`: the name of the item is
the id of the node. -/
structure DICTIONARY_ITEM where
  name : String
  value : DYNCFG
deriving DecidableEq

/-- A string handed to `buffer_json_member_add_string`: a string of the code or
of a node, or the result of one of the name tables, which are defined outside
the sources. -/
inductive JSON_STRING where
  | str (s : String)
  | dyncfg_id2type (type : Nat)
  | dyncfg_id2status (status : DYNCFG_STATUS)
  | dyncfg_id2source_type (source_type : Nat)
  | content_type_id2string (content_type : Nat)
deriving DecidableEq, Repr

/-- One call that writes into the response buffer `wb`. The content of the
buffer is the sequence of these calls. -/
inductive JSON_CALL where
  | buffer_flush
  | buffer_json_init
  | buffer_json_member_add_object (key : String)
  | buffer_json_object_close
  | buffer_json_member_add_string (key : String) (value : JSON_STRING)
  | buffer_json_member_add_boolean (key : String) (value : Bool)
  | buffer_json_member_add_uint64 (key : String) (value : Nat)
  | dyncfg_cmds2json_array (cmds : Nat) (key : String)
  | buffer_json_agents_v2
  | buffer_json_finalize
  | dyncfg_default_response (code : Int) (msg : String)
  | rrd_call_function_error (msg : String) (code : Int)
deriving DecidableEq, Repr

open JSON_CALL in
/-- The function dyncfg_tree_compar: by path, then by the name of the item. -/
def dyncfg_tree_compar (item1 item2 : DICTIONARY_ITEM) : Int :=
  let df1 := item1.value
  let df2 := item2.value
  let rc := string_cmp df1.path df2.path
  if rc = 0 then strcmp item1.name item2.name else rc

open JSON_CALL in
/-- The function dyncfg_to_json: the descriptor of one node, as an object
member named by the id. -/
def dyncfg_to_json (df : DYNCFG) (id : String) : List JSON_CALL :=
  [buffer_json_member_add_object id,
   buffer_json_member_add_string "type" (.dyncfg_id2type df.type),
   buffer_json_member_add_string "status" (.dyncfg_id2status df.status),
   dyncfg_cmds2json_array df.cmds "cmds",
   buffer_json_member_add_string "source_type" (.dyncfg_id2source_type df.source_type),
   buffer_json_member_add_string "source" (.str df.source),
   buffer_json_member_add_boolean "sync" df.sync,
   buffer_json_member_add_boolean "user_disabled" df.user_disabled,
   buffer_json_member_add_boolean "restart_required" df.restart_required,
   buffer_json_member_add_boolean "plugin_rejected" df.restart_required,
   buffer_json_member_add_object "payload"] ++
  (match df.payload with
   | some payload =>
     if payload.len ≠ 0 then
       [buffer_json_member_add_boolean "available" true,
        buffer_json_member_add_string "content_type"
          (.content_type_id2string payload.content_type),
        buffer_json_member_add_uint64 "content_length" payload.len]
     else [buffer_json_member_add_boolean "available" false]
   | none => [buffer_json_member_add_boolean "available" false]) ++
  [buffer_json_object_close,
   buffer_json_member_add_uint64 "saves" df.saves,
   buffer_json_member_add_uint64 "created_ut" df.created_ut,
   buffer_json_member_add_uint64 "modified_ut" df.modified_ut,
   buffer_json_object_close]

/-- The body of the loop `dfe_start_read(dyncfg_globals.nodes, df)` of
dyncfg_tree_for_host on one item: the item as the loop leaves it in the
dictionary, and whether it was appended to `items`. `rrd_function_available`
is defined outside the sources and is an argument. -/
def dyncfg_tree_select (rrd_function_available : RRDHOST → String → Bool)
    (host : RRDHOST) (parent : String) (item : DICTIONARY_ITEM) :
    DICTIONARY_ITEM × Bool :=
  let parent_len := strlen parent
  let df := item.value
  let df :=
    if df.host = none then
      if uuid_memcmp df.host_uuid host.host_uuid = 0 then { df with host := some host.addr }
      else df
    else df
  if df.host ≠ some host.addr ∨ strncmp df.path parent parent_len ≠ 0 then
    ({ item with value := df }, false)
  else
    let df :=
      if !rrd_function_available host df.function then
        { df with status := DYNCFG_STATUS.ORPHAN }
      else df
    ({ item with value := df }, true)

/-- The array `items` after the first loop of dyncfg_tree_for_host: the selected
items, in the order of the dictionary, with the values the loop left. -/
def dyncfg_tree_items (rrd_function_available : RRDHOST → String → Bool)
    (host : RRDHOST) (parent : String) :
    List DICTIONARY_ITEM → List DICTIONARY_ITEM
  | [] => []
  | item :: rest =>
    let r := dyncfg_tree_select rrd_function_available host parent item
    if r.2 then r.1 :: dyncfg_tree_items rrd_function_available host parent rest
    else dyncfg_tree_items rrd_function_available host parent rest

/-- The C library function qsort, as an insertion sort: `compar a b ≤ 0` keeps
`a` before `b`. The theorems on the snapshot use only what the C standard
promises of qsort: the result is a permutation of the array and is sorted by
the comparator. -/
def qsort {α : Type} (compar : α → α → Int) (items : List α) : List α :=
  items.insertionSort (fun a b => compar a b ≤ 0)

/-- The variables of the rendering loop of dyncfg_tree_for_host: the buffer, the
path of the object that is open, and the four counters, of type `size_t`. -/
structure TREE_LOOP where
  wb : List JSON_CALL
  last_path : Option String
  restart_required : Nat
  plugin_rejected : Nat
  status_incomplete : Nat
  status_failed : Nat
deriving DecidableEq

/-- The increment of a `size_t`. -/
def size_t_incr (x : Nat) : Nat := (x + 1) % 2 ^ 64

open JSON_CALL in
/-- The body of the loop `for (size_t i = 0; i < used; i++)` of
dyncfg_tree_for_host on `items[i]`. -/
def dyncfg_tree_step (i : Nat) (item : DICTIONARY_ITEM) (st : TREE_LOOP) : TREE_LOOP :=
  let df := item.value
  let st :=
    if some df.path ≠ st.last_path then
      let wb := if i ≠ 0 then st.wb ++ [buffer_json_object_close] else st.wb
      { st with last_path := some df.path,
                wb := wb ++ [buffer_json_member_add_object df.path] }
    else st
  let st := { st with wb := st.wb ++ dyncfg_to_json df item.name }
  if df.status ≠ DYNCFG_STATUS.ORPHAN then
    let st := if df.restart_required then
      { st with restart_required := size_t_incr st.restart_required } else st
    let st := if df.plugin_rejected then
      { st with plugin_rejected := size_t_incr st.plugin_rejected } else st
    let st := if df.status = DYNCFG_STATUS.FAILED then
      { st with status_failed := size_t_incr st.status_failed } else st
    let st := if df.status = DYNCFG_STATUS.INCOMPLETE then
      { st with status_incomplete := size_t_incr st.status_incomplete } else st
    st
  else st

/-- The loop `for (size_t i = 0; i < used; i++)` from the index `i` on. -/
def dyncfg_tree_loop : Nat → List DICTIONARY_ITEM → TREE_LOOP → TREE_LOOP
  | _, [], st => st
  | i, item :: rest, st => dyncfg_tree_loop (i + 1) rest (dyncfg_tree_step i item st)

open JSON_CALL in
/-- The function dyncfg_tree_for_host: the dictionary as the call leaves it and
the content of `wb`. The argument `id` is not read by the body. -/
def dyncfg_tree_for_host (rrd_function_available : RRDHOST → String → Bool)
    (nodes : List DICTIONARY_ITEM) (host : RRDHOST) (parent : String)
    (_id : Option String) : List DICTIONARY_ITEM × List JSON_CALL :=
  let nodes_after :=
    nodes.map (fun item => (dyncfg_tree_select rrd_function_available host parent item).1)
  let items := dyncfg_tree_items rrd_function_available host parent nodes
  let used := items.length
  let items := qsort dyncfg_tree_compar items
  let wb := [buffer_flush, buffer_json_init,
             buffer_json_member_add_uint64 "version" 1,
             buffer_json_member_add_object "tree"]
  let st := dyncfg_tree_loop 0 items
    { wb := wb, last_path := none, restart_required := 0, plugin_rejected := 0,
      status_incomplete := 0, status_failed := 0 }
  let wb := if used ≠ 0 then st.wb ++ [buffer_json_object_close] else st.wb
  let wb := wb ++ [buffer_json_object_close]
  let wb := wb ++
    [buffer_json_member_add_object "attention",
     buffer_json_member_add_boolean "degraded"
       (decide ((st.restart_required + st.plugin_rejected + st.status_failed
          + st.status_incomplete) % 2 ^ 64 > 0)),
     buffer_json_member_add_uint64 "restart_required" st.restart_required,
     buffer_json_member_add_uint64 "plugin_rejected" st.plugin_rejected,
     buffer_json_member_add_uint64 "status_failed" st.status_failed,
     buffer_json_member_add_uint64 "status_incomplete" st.status_incomplete,
     buffer_json_object_close]
  let wb := wb ++ [buffer_json_agents_v2, buffer_json_finalize]
  (nodes_after, wb)

open JSON_CALL in
/-- The calls that the rendering loop of dyncfg_tree_for_host makes from the
index `i` on, when `last_path` holds `last`. -/
def dyncfg_tree_loop_calls : Nat → Option String → List DICTIONARY_ITEM → List JSON_CALL
  | _, _, [] => []
  | i, last, item :: rest =>
    ((if some item.value.path ≠ last then
        (if i ≠ 0 then [buffer_json_object_close] else []) ++
          [buffer_json_member_add_object item.value.path]
      else []) ++ dyncfg_to_json item.value item.name) ++
      dyncfg_tree_loop_calls (i + 1) (some item.value.path) rest

/-- The chain of open objects inside `tree` when `last_path` holds `last`. -/
def tree_stack (last : Option String) : List String :=
  match last with
  | none => ["tree"]
  | some path => [path, "tree"]

/-- The array `items` of dyncfg_tree_for_host after `qsort`. -/
def dyncfg_tree_sorted (rrd_function_available : RRDHOST → String → Bool)
    (nodes : List DICTIONARY_ITEM) (host : RRDHOST) (parent : String) :
    List DICTIONARY_ITEM :=
  qsort dyncfg_tree_compar (dyncfg_tree_items rrd_function_available host parent nodes)

open JSON_CALL in
/-- The variables of dyncfg_tree_for_host when the rendering loop is entered. -/
def dyncfg_tree_start : TREE_LOOP :=
  { wb := [buffer_flush, buffer_json_init,
           buffer_json_member_add_uint64 "version" 1,
           buffer_json_member_add_object "tree"],
    last_path := none, restart_required := 0, plugin_rejected := 0,
    status_incomplete := 0, status_failed := 0 }

/-- The variables of dyncfg_tree_for_host when the rendering loop is left. -/
def dyncfg_tree_end (rrd_function_available : RRDHOST → String → Bool)
    (nodes : List DICTIONARY_ITEM) (host : RRDHOST) (parent : String) : TREE_LOOP :=
  dyncfg_tree_loop 0 (dyncfg_tree_sorted rrd_function_available nodes host parent)
    dyncfg_tree_start

/-! ## The `config` function (`dyncfg-tree.c`, lines 134-190) -/

/-- Modelled from the spec: the function dyncfg_default_response is defined
outside the sources. It writes the rejection, a status code and a message,
into the buffer and returns the code it was given, which is the outcome
returned to the caller. -/
def dyncfg_default_response (code : Int) (msg : String) : List JSON_CALL × Int :=
  ([JSON_CALL.dyncfg_default_response code msg], code)

/-- The chain of open objects after one call. -/
def json_stack_step (stack : List String) : JSON_CALL → List String
  | .buffer_json_member_add_object key => key :: stack
  | .buffer_json_object_close => stack.tail
  | _ => stack

/-- Every call of the sequence with the chain of objects that are open when it is
made. -/
def json_walk : List String → List JSON_CALL → List (List String × JSON_CALL)
  | _, [] => []
  | stack, call :: rest => (stack, call) :: json_walk (json_stack_step stack call) rest

/-- The key of a path object of `tree`, when the call opens one. -/
def path_key_of (e : List String × JSON_CALL) : Option String :=
  match e with
  | (["tree"], .buffer_json_member_add_object path) => some path
  | _ => none

/-- Whether the call closes a path object of `tree`. -/
def path_close_of (e : List String × JSON_CALL) : Bool :=
  match e with
  | ([_, "tree"], .buffer_json_object_close) => true
  | _ => false

/-- The path key and the id key of a node of `tree`, when the call opens one. -/
def entry_of (e : List String × JSON_CALL) : Option (String × String) :=
  match e with
  | ([path, "tree"], .buffer_json_member_add_object id) => some (path, id)
  | _ => none

/-- The string member `key` of a node descriptor of `tree`, with the path key and
the id key of the node, when the call writes one. -/
def node_string_of (key : String) (e : List String × JSON_CALL) :
    Option (String × String × JSON_STRING) :=
  match e with
  | ([id, path, "tree"], .buffer_json_member_add_string k v) =>
    if k = key then some (path, id, v) else none
  | _ => none

/-- The boolean member `key` of a node descriptor of `tree`, with the path key
and the id key of the node, when the call writes one. -/
def node_boolean_of (key : String) (e : List String × JSON_CALL) :
    Option (String × String × Bool) :=
  match e with
  | ([id, path, "tree"], .buffer_json_member_add_boolean k v) =>
    if k = key then some (path, id, v) else none
  | _ => none

/-- The member of the object `attention` that the call writes, when it writes
one. -/
def attention_of (e : List String × JSON_CALL) : Option JSON_CALL :=
  match e with
  | (["attention"], .buffer_json_member_add_boolean k v) =>
    some (.buffer_json_member_add_boolean k v)
  | (["attention"], .buffer_json_member_add_uint64 k v) =>
    some (.buffer_json_member_add_uint64 k v)
  | _ => none

/-- The keys of the object `tree`, in the order they are opened: the paths. -/
def tree_paths (wb : List JSON_CALL) : List String :=
  (json_walk [] wb).filterMap path_key_of

/-- The number of path objects of `tree` that are closed. -/
def tree_paths_closed (wb : List JSON_CALL) : Nat :=
  ((json_walk [] wb).filter path_close_of).length

/-- The nodes of the object `tree`, in the order they are written: the path key
and the id key of each. -/
def tree_entries (wb : List JSON_CALL) : List (String × String) :=
  (json_walk [] wb).filterMap entry_of

/-- The string members `key` of the node descriptors of `tree`, each with the
path key and the id key of its node. -/
def tree_node_strings (key : String) (wb : List JSON_CALL) :
    List (String × String × JSON_STRING) :=
  (json_walk [] wb).filterMap (node_string_of key)

/-- The boolean members `key` of the node descriptors of `tree`, each with the
path key and the id key of its node. -/
def tree_node_booleans (key : String) (wb : List JSON_CALL) :
    List (String × String × Bool) :=
  (json_walk [] wb).filterMap (node_boolean_of key)

/-- The members of the object `attention`. -/
def attention_members (wb : List JSON_CALL) : List JSON_CALL :=
  (json_walk [] wb).filterMap attention_of

/-- The boolean members `key` of a descriptor written by dyncfg_to_json, outside
its nested objects. -/
def descriptor_booleans (key : String) (calls : List JSON_CALL) : List Bool :=
  (json_walk [] calls).filterMap (fun e =>
    match e with
    | ([_], .buffer_json_member_add_boolean k v) => if k = key then some v else none
    | _ => none)

open JSON_CALL in
/-- The calls of dyncfg_tree_loop_calls, each with the chain of objects that are
open when it is made. -/
def dyncfg_tree_loop_walk :
    Nat → Option String → List DICTIONARY_ITEM → List (List String × JSON_CALL)
  | _, _, [] => []
  | i, last, item :: rest =>
    ((if some item.value.path ≠ last then
        (if i ≠ 0 then [(tree_stack last, buffer_json_object_close)] else []) ++
          [(["tree"], buffer_json_member_add_object item.value.path)]
      else []) ++ json_walk [item.value.path, "tree"] (dyncfg_to_json item.value item.name)) ++
      dyncfg_tree_loop_walk (i + 1) (some item.value.path) rest

/-- The paths for which the rendering loop opens an object: the path of every
item whose path differs from the one before it. -/
def opened_paths : Option String → List String → List String
  | _, [] => []
  | last, path :: rest =>
    (if some path ≠ last then [path] else []) ++ opened_paths (some path) rest

/-- Whether a node belongs to the host: its host pointer is the host, or it is
NULL and the host UUIDs are equal. -/
def dyncfg_belongs (host : RRDHOST) (df : DYNCFG) : Bool :=
  df.host == some host.addr || (df.host == none && df.host_uuid == host.host_uuid)

/-- Whether a node of the dictionary is selected for the tree of the host under
`parent`: it belongs to the host and `parent` is a prefix of its path. -/
def dyncfg_selected (host : RRDHOST) (parent : String) (item : DICTIONARY_ITEM) : Bool :=
  dyncfg_belongs host item.value && decide (parent.data <+: item.value.path.data)

/-- The status a selected node is rendered with: orphan when its function is not
available, the stored status otherwise. -/
def dyncfg_rendered_status (rrd_function_available : RRDHOST → String → Bool)
    (host : RRDHOST) (df : DYNCFG) : DYNCFG_STATUS :=
  if rrd_function_available host df.function then df.status else DYNCFG_STATUS.ORPHAN

/-- A selected item as the first loop leaves it: the host pointer set and the
status replaced by the rendered one. -/
def dyncfg_selected_item (rrd_function_available : RRDHOST → String → Bool)
    (host : RRDHOST) (item : DICTIONARY_ITEM) : DICTIONARY_ITEM :=
  { item with value :=
      { item.value with host := some host.addr,
                        status := dyncfg_rendered_status rrd_function_available host
                          item.value } }

/-- The selected nodes of the dictionary as the first loop of
dyncfg_tree_for_host leaves them, in the order of the dictionary. -/
def dyncfg_tree_rendered (rrd_function_available : RRDHOST → String → Bool)
    (nodes : List DICTIONARY_ITEM) (host : RRDHOST) (parent : String) :
    List DICTIONARY_ITEM :=
  (nodes.filter (dyncfg_selected host parent)).map
    (dyncfg_selected_item rrd_function_available host)

/-- The number of items that a counter of the rendering loop counts: the ones
whose status is not orphan and that satisfy `p`. -/
def attention_count (p : DYNCFG → Bool) (items : List DICTIONARY_ITEM) : Nat :=
  (items.filter (fun item =>
    decide (item.value.status ≠ DYNCFG_STATUS.ORPHAN) && p item.value)).length

/-! ## Sample values -/

/-- The UUID whose 16 bytes all equal `b`. -/
def uuid_sample (b : Fin 256) : uuid_t := ⟨List.replicate 16 b, List.length_replicate 16 b⟩

/-- A staging table with a sent row and a pending row for the UUID of bytes 7
and a pending row for the UUID of bytes 9. -/
def sample_chart_table : aclk_chart_table :=
  { rows := [
      { sequence_id := 1, date_created := some 50, date_updated := none,
        date_submitted := some 60, status := some "sent", uuid := some (uuid_sample 7),
        type := some 0, unique_id := some (uuid_sample 1), update_count := .integer 1 },
      { sequence_id := 2, date_created := some 70, date_updated := none,
        date_submitted := none, status := some "pending", uuid := some (uuid_sample 7),
        type := some 0, unique_id := some (uuid_sample 2), update_count := .integer 3 },
      { sequence_id := 3, date_created := some 80, date_updated := none,
        date_submitted := none, status := some "pending", uuid := some (uuid_sample 9),
        type := some 1, unique_id := some (uuid_sample 3), update_count := .integer 1 }],
    seq := 5 }

/-- A payload row for the UUID of bytes 7. -/
def sample_payload_row : aclk_chart_payload_row :=
  { unique_id := some (uuid_sample 4), uuid := some (uuid_sample 7), claim_id := none,
    type := some 0, date_created := some 100, payload := some "chart" }

/-- A host list: localhost, not claimed yet, and a child whose node id is the
UUID of bytes 7. -/
def sample_hosts : List RRDHOST :=
  [{ addr := 4096, hostname := "localhost", host_uuid := uuid_sample 1, node_id := none },
   { addr := 8192, hostname := "child", host_uuid := uuid_sample 2,
     node_id := some (uuid_sample 7) }]

/-- The host the sample tree is asked for. -/
def sample_host : RRDHOST :=
  { addr := 4096, hostname := "localhost", host_uuid := uuid_sample 1, node_id := none }

/-- A configuration node of the sample host. -/
def sample_node (path function : String) (status : DYNCFG_STATUS)
    (restart_required plugin_rejected : Bool) : DYNCFG :=
  { host := some 4096, host_uuid := uuid_sample 1, path := path, function := function,
    status := status, type := 1, cmds := 3, source_type := 2, source := "user",
    sync := true, user_disabled := false, restart_required := restart_required,
    plugin_rejected := plugin_rejected, payload := none, saves := 0,
    created_ut := 10, modified_ut := 20 }

/-- The dictionary of the scenario of the spec: `mem.1` under `/collectors/mem`
and `cpu.1` under `/collectors/cpu`, both running without any flag. -/
def sample_nodes : List DICTIONARY_ITEM :=
  [{ name := "mem.1", value := sample_node "/collectors/mem" "mem" (.OTHER 2) false false },
   { name := "cpu.1", value := sample_node "/collectors/cpu" "cpu" (.OTHER 2) false false }]

/-- Every function but `gone` is available. -/
def sample_available (_host : RRDHOST) (function : String) : Bool :=
  function != "gone"

/-- An id is valid when it holds no blank. -/
def sample_valid_id (id : String) : Bool :=
  !id.data.contains ' '

/-- A dictionary with one node that is failed, flagged restart-required and
rejected by its plugin, and whose function `gone` is not available. -/
def sample_orphan_nodes : List DICTIONARY_ITEM :=
  [{ name := "cpu.1", value := sample_node "/collectors/cpu" "gone" .FAILED true true }]

/-- A dictionary with an orphan that carries both flags and a stored status
failed, and an incomplete node rejected by its plugin. -/
def sample_mixed_nodes : List DICTIONARY_ITEM :=
  [{ name := "cpu.1", value := sample_node "/collectors/cpu" "gone" .FAILED true true },
   { name := "mem.1", value := sample_node "/collectors/mem" "mem" .INCOMPLETE false true }]

/-! # Theorems -/

/-! ## C strings -/

theorem strcmp_chars_eq_zero (a b : List Char) : strcmp_chars a b = 0 ↔ a = b := by
  induction a generalizing b with
  | nil => cases b <;> simp [strcmp_chars]
  | cons x xs ih =>
    cases b with
    | nil => simp [strcmp_chars]
    | cons y ys =>
      simp only [strcmp_chars, List.cons.injEq]
      by_cases h1 : x < y
      · simp [h1, ne_of_lt h1]
      · by_cases h2 : y < x
        · simp [h1, h2, ne_of_gt h2]
        · have hxy : x = y := le_antisymm (not_lt.mp h2) (not_lt.mp h1)
          simp [h1, h2, hxy, ih]

theorem strcmp_chars_neg (a b : List Char) : strcmp_chars b a = - strcmp_chars a b := by
  induction a generalizing b with
  | nil => cases b <;> simp [strcmp_chars]
  | cons x xs ih =>
    cases b with
    | nil => simp [strcmp_chars]
    | cons y ys =>
      simp only [strcmp_chars]
      by_cases h1 : x < y
      · simp [h1, not_lt_of_gt h1]
      · by_cases h2 : y < x
        · simp [h1, h2]
        · simp [h1, h2, ih]

theorem strcmp_chars_range (a b : List Char) :
    strcmp_chars a b = -1 ∨ strcmp_chars a b = 0 ∨ strcmp_chars a b = 1 := by
  induction a generalizing b with
  | nil => cases b <;> simp [strcmp_chars]
  | cons x xs ih =>
    cases b with
    | nil => simp [strcmp_chars]
    | cons y ys =>
      simp only [strcmp_chars]
      by_cases h1 : x < y
      · simp [h1]
      · by_cases h2 : y < x
        · simp [h1, h2]
        · simp only [h1, h2, if_false]; exact ih ys

theorem strcmp_chars_trans (a b c : List Char)
    (hab : strcmp_chars a b ≤ 0) (hbc : strcmp_chars b c ≤ 0) : strcmp_chars a c ≤ 0 := by
  induction a generalizing b c with
  | nil => cases c <;> simp [strcmp_chars]
  | cons x xs ih =>
    cases b with
    | nil => simp [strcmp_chars] at hab
    | cons y ys =>
      cases c with
      | nil => simp [strcmp_chars] at hbc
      | cons z zs =>
        simp only [strcmp_chars] at hab hbc ⊢
        by_cases hxy : x < y
        · by_cases hyz : y < z
          · simp [lt_trans hxy hyz]
          · by_cases hzy : z < y
            · simp [hyz, hzy] at hbc
            · have : y = z := le_antisymm (not_lt.mp hzy) (not_lt.mp hyz)
              subst this
              simp [hxy]
        · by_cases hyx : y < x
          · simp [hxy, hyx] at hab
          · have : x = y := le_antisymm (not_lt.mp hyx) (not_lt.mp hxy)
            subst this
            simp only [hxy, if_false] at hab
            by_cases hxz : x < z
            · simp [hxz]
            · by_cases hzx : z < x
              · simp [hxz, hzx] at hbc
              · simp only [hxz, hzx, if_false] at hbc ⊢
                exact ih ys zs hab hbc

theorem strcmp_eq_zero (a b : String) : strcmp a b = 0 ↔ a = b := by
  unfold strcmp
  rw [strcmp_chars_eq_zero]
  exact ⟨String.ext, fun h => by rw [h]⟩

theorem strncmp_chars_eq_zero (a b : List Char) :
    strncmp_chars a b b.length = 0 ↔ b <+: a := by
  induction b generalizing a with
  | nil => simp [strncmp_chars]
  | cons y ys ih =>
    cases a with
    | nil => simp [strncmp_chars]
    | cons x xs =>
      simp only [List.length_cons, strncmp_chars, List.cons_prefix_cons]
      by_cases h1 : x < y
      · simp [h1, ne_of_gt h1]
      · by_cases h2 : y < x
        · simp [h1, h2, ne_of_lt h2]
        · have hxy : y = x := le_antisymm (not_lt.mp h1) (not_lt.mp h2)
          simp [h1, h2, hxy, ih]

theorem strcmp_chars_lt_iff (a b : List Char) :
    strcmp_chars a b < 0 ↔ List.Lex (fun x y : Char => x < y) a b := by
  induction a generalizing b with
  | nil =>
    cases b with
    | nil =>
      simp only [strcmp_chars, lt_self_iff_false, false_iff]
      intro h; cases h
    | cons y ys =>
      simp only [strcmp_chars, Int.reduceNeg, Int.reduceLT, true_iff]
      exact List.Lex.nil
  | cons x xs ih =>
    cases b with
    | nil =>
      simp only [strcmp_chars, Int.reduceLT, false_iff]
      intro h; cases h
    | cons y ys =>
      simp only [strcmp_chars]
      by_cases h1 : x < y
      · simp only [h1, if_true, Int.reduceNeg, Int.reduceLT, true_iff]
        exact List.Lex.rel h1
      · by_cases h2 : y < x
        · simp only [h1, h2, if_true, if_false, Int.reduceLT, false_iff]
          intro h
          cases h with
          | cons h => exact lt_irrefl _ h2
          | rel h => exact h1 h
        · simp only [h1, h2, if_false]
          rw [ih ys]
          have hxy : x = y := le_antisymm (not_lt.mp h2) (not_lt.mp h1)
          subst hxy
          constructor
          · intro h; exact List.Lex.cons h
          · intro h
            cases h with
            | cons h => exact h
            | rel h => exact absurd h h1

theorem strcmp_lt_iff (a b : String) : strcmp a b < 0 ↔ a < b := by
  rw [String.lt_iff_toList_lt]
  exact strcmp_chars_lt_iff a.data b.data

/-! ## Completion handle -/

theorem aclk_complete_iterate (k : Nat) (p : aclk_completion) :
    (aclk_complete^[k] p).completed = p.completed ∨ (aclk_complete^[k] p).completed = 1 := by
  induction k generalizing p with
  | zero => left; rfl
  | succ k ih =>
    rw [Function.iterate_succ_apply]
    rcases ih (aclk_complete p) with h | h
    · right; rw [h]; rfl
    · right; exact h

theorem wait_loop_completed (wakeups : List Nat) (p : aclk_completion) (waits : Nat)
    (h : p.completed = 1) : wait_loop wakeups p waits = .returned p waits := by
  unfold wait_loop
  simp [h]

theorem wait_loop_no_assert (wakeups : List Nat) (p : aclk_completion) (waits : Nat)
    (h : p.completed = 0 ∨ p.completed = 1) :
    ∀ q, wait_loop wakeups p waits ≠ .assert_failed q := by
  induction wakeups generalizing p waits with
  | nil =>
    intro q
    unfold wait_loop
    rcases h with h | h <;> simp [h]
  | cons k rest ih =>
    intro q
    unfold wait_loop
    rcases h with h | h
    · simp only [h, if_true]
      apply ih
      rcases aclk_complete_iterate k p with h2 | h2
      · left; rw [h2, h]
      · right; exact h2
    · simp [h]

theorem wait_loop_returned (wakeups : List Nat) :
    ∀ (p : aclk_completion) (waits : Nat) (q : aclk_completion) (w : Nat),
      wait_loop wakeups p waits = .returned q w →
        q.completed = 1 ∧ waits ≤ w ∧ (p.completed = 0 → waits < w) := by
  induction wakeups with
  | nil =>
    intro p waits q w h
    unfold wait_loop at h
    by_cases h0 : 0 = p.completed
    · simp [h0] at h
    · by_cases h1 : 1 = p.completed
      · simp only [h0, h1, if_true, if_false, WaitOutcome.returned.injEq] at h
        obtain ⟨rfl, rfl⟩ := h
        exact ⟨h1.symm, le_rfl, fun hp => absurd hp.symm h0⟩
      · simp [h0, h1] at h
  | cons k rest ih =>
    intro p waits q w h
    unfold wait_loop at h
    by_cases h0 : 0 = p.completed
    · simp only [h0, if_true] at h
      obtain ⟨hq, hle, _⟩ := ih _ _ q w h
      exact ⟨hq, by omega, fun _ => by omega⟩
    · by_cases h1 : 1 = p.completed
      · simp only [h0, h1, if_true, if_false, WaitOutcome.returned.injEq] at h
        obtain ⟨rfl, rfl⟩ := h
        exact ⟨h1.symm, le_rfl, fun hp => absurd hp.symm h0⟩
      · simp [h0, h1] at h

theorem wait_loop_spurious (n : Nat) :
    ∀ waits : Nat, wait_loop (List.replicate n 0) { completed := 0 } waits
      = .blocked { completed := 0 } (waits + n) := by
  induction n with
  | zero => intro waits; unfold wait_loop; simp
  | succ n ih =>
    intro waits
    rw [List.replicate_succ]
    unfold wait_loop
    simp only [if_true, Function.iterate_zero, id_eq]
    rw [ih]
    congr 1
    omega

/-- C7: the completion handle as a state machine over its flag. Initialisation
either aborts on a libuv failure or leaves the flag at 0, and it does the
latter when libuv reports success; completing sets the flag to 1 from any state
and is idempotent; every state reached from an initialised handle by any number
of completions has the flag 0 or 1; from such a state a wait never fails its
assertion, whatever the other threads do; a wait on a completed handle
returns at once, with zero condition waits and the handle unchanged. Whenever
a wait returns, from any state and under any schedule, the flag of the handle
is 1; a wait on a handle whose flag is 0 returns only after at least one
condition wait; it stays suspended through any number of wakeups without a
completion; and it returns after the first wait during which the handle is
completed. -/
theorem completion_state_machine :
    (∀ p0, init_aclk_completion p0 0 0 = some { completed := 0 }) ∧
    (∀ p0 rc1 rc2, init_aclk_completion p0 rc1 rc2 = none ∨
      init_aclk_completion p0 rc1 rc2 = some { completed := 0 }) ∧
    (∀ p, (aclk_complete p).completed = 1) ∧
    (∀ p, aclk_complete (aclk_complete p) = aclk_complete p) ∧
    (∀ n, (aclk_complete^[n] { completed := 0 }).completed = 0 ∨
      (aclk_complete^[n] { completed := 0 }).completed = 1) ∧
    (∀ n wakeups q,
      wait_for_aclk_completion wakeups (aclk_complete^[n] { completed := 0 })
        ≠ .assert_failed q) ∧
    (∀ p wakeups, wait_for_aclk_completion wakeups (aclk_complete p)
      = .returned (aclk_complete p) 0) ∧
    (∀ n wakeups,
      wait_for_aclk_completion wakeups (aclk_complete^[n + 1] { completed := 0 })
        = .returned (aclk_complete^[n + 1] { completed := 0 }) 0) ∧
    (∀ wakeups p q w, wait_for_aclk_completion wakeups p = .returned q w →
      q.completed = 1) ∧
    (∀ wakeups p q w, p.completed = 0 →
      wait_for_aclk_completion wakeups p = .returned q w → 0 < w) ∧
    (∀ n, wait_for_aclk_completion (List.replicate n 0) { completed := 0 }
      = .blocked { completed := 0 } n) ∧
    (∀ k rest, wait_for_aclk_completion ((k + 1) :: rest) { completed := 0 }
      = .returned { completed := 1 } 1) := by
  have hreach : ∀ n, (aclk_complete^[n] { completed := 0 }).completed = 0 ∨
      (aclk_complete^[n] { completed := 0 }).completed = 1 := by
    intro n
    rcases aclk_complete_iterate n { completed := 0 } with h2 | h2
    · left; rw [h2]
    · right; exact h2
  refine ⟨fun _ => rfl, ?_, fun _ => rfl, fun _ => rfl, hreach, ?_, ?_, ?_, ?_, ?_, ?_, ?_⟩
  · intro p0 rc1 rc2
    unfold init_aclk_completion
    split_ifs
    · left; rfl
    · left; rfl
    · right; rfl
  · intro n wakeups q
    exact wait_loop_no_assert wakeups _ 0 (hreach n) q
  · intro p wakeups
    exact wait_loop_completed wakeups _ 0 rfl
  · intro n wakeups
    apply wait_loop_completed
    rw [Function.iterate_succ_apply']
    rfl
  · intro wakeups p q w h
    exact (wait_loop_returned wakeups p 0 q w h).1
  · intro wakeups p q w hp h
    exact (wait_loop_returned wakeups p 0 q w h).2.2 hp
  · intro n
    have := wait_loop_spurious n 0
    rw [Nat.zero_add] at this
    exact this
  · intro k rest
    unfold wait_for_aclk_completion wait_loop
    simp only [if_true]
    have hc : aclk_complete^[k + 1] { completed := 0 } = { completed := 1 } := by
      rw [Function.iterate_succ_apply']
      rfl
    rw [hc]
    exact wait_loop_completed rest _ 1 rfl

/-- Witness of C7 on a fresh handle that is woken once without a completion and
then once after two completions: the wait returns after two condition waits,
with the flag 1. -/
theorem completion_state_machine_witness :
    wait_for_aclk_completion [0, 2] { completed := 0 } = .returned { completed := 1 } 2 ∧
    ({ completed := 1 } : aclk_completion).completed = 1 ∧
    0 < 2 :=
  ⟨by decide,
    completion_state_machine.2.2.2.2.2.2.2.2.1 [0, 2] { completed := 0 }
      { completed := 1 } 2 (by decide),
    completion_state_machine.2.2.2.2.2.2.2.2.2.1 [0, 2] { completed := 0 }
      { completed := 1 } 2 rfl (by decide)⟩

/-! ## UUID text -/

theorem hexdigit_hexval : ∀ n : Fin 16, hexval (hexdigit n.val) = n.val := by decide

theorem hexdigit_suffix_char : ∀ n : Fin 16, suffix_char (hexdigit n.val) = true ∧
    hexdigit n.val ≠ '-' := by decide

theorem list_length_succ {α : Type} (n : Nat) (l : List α) (h : l.length = n + 1) :
    ∃ a t, l = a :: t ∧ t.length = n := by
  cases l with
  | nil => simp at h
  | cons a t => exact ⟨a, t, rfl, by simpa using h⟩

theorem uuid_cases (u : uuid_t) :
    ∃ b0 b1 b2 b3 b4 b5 b6 b7 b8 b9 b10 b11 b12 b13 b14 b15 : Fin 256,
      u.val = [b0, b1, b2, b3, b4, b5, b6, b7, b8, b9, b10, b11, b12, b13, b14, b15] := by
  obtain ⟨l0, h0⟩ := u
  obtain ⟨b0, l1, e0, h1⟩ := list_length_succ 15 l0 h0
  obtain ⟨b1, l2, e1, h2⟩ := list_length_succ 14 l1 h1
  obtain ⟨b2, l3, e2, h3⟩ := list_length_succ 13 l2 h2
  obtain ⟨b3, l4, e3, h4⟩ := list_length_succ 12 l3 h3
  obtain ⟨b4, l5, e4, h5⟩ := list_length_succ 11 l4 h4
  obtain ⟨b5, l6, e5, h6⟩ := list_length_succ 10 l5 h5
  obtain ⟨b6, l7, e6, h7⟩ := list_length_succ 9 l6 h6
  obtain ⟨b7, l8, e7, h8⟩ := list_length_succ 8 l7 h7
  obtain ⟨b8, l9, e8, h9⟩ := list_length_succ 7 l8 h8
  obtain ⟨b9, l10, e9, h10⟩ := list_length_succ 6 l9 h9
  obtain ⟨b10, l11, e10, h11⟩ := list_length_succ 5 l10 h10
  obtain ⟨b11, l12, e11, h12⟩ := list_length_succ 4 l11 h11
  obtain ⟨b12, l13, e12, h13⟩ := list_length_succ 3 l12 h12
  obtain ⟨b13, l14, e13, h14⟩ := list_length_succ 2 l13 h13
  obtain ⟨b14, l15, e14, h15⟩ := list_length_succ 1 l14 h14
  obtain ⟨b15, l16, e15, h16⟩ := list_length_succ 0 l15 h15
  have e16 : l16 = [] := List.length_eq_zero.mp h16
  subst e16 e15 e14 e13 e12 e11 e10 e9 e8 e7 e6 e5 e4 e3 e2 e1 e0
  exact ⟨b0, b1, b2, b3, b4, b5, b6, b7, b8, b9, b10, b11, b12, b13, b14, b15, rfl⟩

theorem byte_of_digits (a b : Fin 256)
    (hhi : hexdigit (a.val / 16) = hexdigit (b.val / 16))
    (hlo : hexdigit (a.val % 16) = hexdigit (b.val % 16)) : a = b := by
  have h1 : a.val / 16 < 16 := by omega
  have h2 : b.val / 16 < 16 := by omega
  have h3 : a.val % 16 < 16 := by omega
  have h4 : b.val % 16 < 16 := by omega
  have e1 := hexdigit_hexval ⟨a.val / 16, h1⟩
  have e2 := hexdigit_hexval ⟨b.val / 16, h2⟩
  have e3 := hexdigit_hexval ⟨a.val % 16, h3⟩
  have e4 := hexdigit_hexval ⟨b.val % 16, h4⟩
  simp only at e1 e2 e3 e4
  rw [hhi, e2] at e1
  rw [hlo, e4] at e3
  apply Fin.ext
  omega

theorem hexdigit_hi (b : Fin 256) :
    suffix_char (hexdigit (b.val / 16)) = true ∧ hexdigit (b.val / 16) ≠ '-' :=
  hexdigit_suffix_char ⟨b.val / 16, by omega⟩

theorem hexdigit_lo (b : Fin 256) :
    suffix_char (hexdigit (b.val % 16)) = true ∧ hexdigit (b.val % 16) ≠ '-' :=
  hexdigit_suffix_char ⟨b.val % 16, by omega⟩

theorem uuid_fix_text (u : uuid_t) :
    ∃ b0 b1 b2 b3 b4 b5 b6 b7 b8 b9 b10 b11 b12 b13 b14 b15 : Fin 256,
      u.val = [b0, b1, b2, b3, b4, b5, b6, b7, b8, b9, b10, b11, b12, b13, b14, b15] ∧
      uuid_unparse_lower u =
        [hexdigit (b0.val / 16), hexdigit (b0.val % 16), hexdigit (b1.val / 16),
         hexdigit (b1.val % 16), hexdigit (b2.val / 16), hexdigit (b2.val % 16),
         hexdigit (b3.val / 16), hexdigit (b3.val % 16), '-',
         hexdigit (b4.val / 16), hexdigit (b4.val % 16), hexdigit (b5.val / 16),
         hexdigit (b5.val % 16), '-',
         hexdigit (b6.val / 16), hexdigit (b6.val % 16), hexdigit (b7.val / 16),
         hexdigit (b7.val % 16), '-',
         hexdigit (b8.val / 16), hexdigit (b8.val % 16), hexdigit (b9.val / 16),
         hexdigit (b9.val % 16), '-',
         hexdigit (b10.val / 16), hexdigit (b10.val % 16), hexdigit (b11.val / 16),
         hexdigit (b11.val % 16), hexdigit (b12.val / 16), hexdigit (b12.val % 16),
         hexdigit (b13.val / 16), hexdigit (b13.val % 16), hexdigit (b14.val / 16),
         hexdigit (b14.val % 16), hexdigit (b15.val / 16), hexdigit (b15.val % 16)] ∧
      uuid_unparse_lower_fix u =
        [hexdigit (b0.val / 16), hexdigit (b0.val % 16), hexdigit (b1.val / 16),
         hexdigit (b1.val % 16), hexdigit (b2.val / 16), hexdigit (b2.val % 16),
         hexdigit (b3.val / 16), hexdigit (b3.val % 16), '_',
         hexdigit (b4.val / 16), hexdigit (b4.val % 16), hexdigit (b5.val / 16),
         hexdigit (b5.val % 16), '_',
         hexdigit (b6.val / 16), hexdigit (b6.val % 16), hexdigit (b7.val / 16),
         hexdigit (b7.val % 16), '_',
         hexdigit (b8.val / 16), hexdigit (b8.val % 16), hexdigit (b9.val / 16),
         hexdigit (b9.val % 16), '_',
         hexdigit (b10.val / 16), hexdigit (b10.val % 16), hexdigit (b11.val / 16),
         hexdigit (b11.val % 16), hexdigit (b12.val / 16), hexdigit (b12.val % 16),
         hexdigit (b13.val / 16), hexdigit (b13.val % 16), hexdigit (b14.val / 16),
         hexdigit (b14.val % 16), hexdigit (b15.val / 16), hexdigit (b15.val % 16)] := by
  obtain ⟨b0, b1, b2, b3, b4, b5, b6, b7, b8, b9, b10, b11, b12, b13, b14, b15, h⟩ :=
    uuid_cases u
  refine ⟨b0, b1, b2, b3, b4, b5, b6, b7, b8, b9, b10, b11, b12, b13, b14, b15, h, ?_, ?_⟩
  · simp [uuid_unparse_lower, h, uuid_fmt]
  · simp [uuid_unparse_lower_fix, uuid_unparse_lower, h, uuid_fmt]

theorem uuid_unparse_lower_length (u : uuid_t) : (uuid_unparse_lower u).length = 36 := by
  obtain ⟨b0, b1, b2, b3, b4, b5, b6, b7, b8, b9, b10, b11, b12, b13, b14, b15, _, h, _⟩ :=
    uuid_fix_text u
  rw [h]; rfl

theorem uuid_unparse_lower_fix_inj (u v : uuid_t)
    (h : uuid_unparse_lower_fix u = uuid_unparse_lower_fix v) : u = v := by
  obtain ⟨a0, a1, a2, a3, a4, a5, a6, a7, a8, a9, a10, a11, a12, a13, a14, a15, hu, _, hfu⟩ :=
    uuid_fix_text u
  obtain ⟨b0, b1, b2, b3, b4, b5, b6, b7, b8, b9, b10, b11, b12, b13, b14, b15, hv, _, hfv⟩ :=
    uuid_fix_text v
  rw [hfu, hfv] at h
  simp only [List.cons.injEq, and_true, true_and] at h
  obtain ⟨h0, h0', h1, h1', h2, h2', h3, h3', h4, h4', h5, h5', h6, h6', h7, h7', h8, h8',
    h9, h9', h10, h10', h11, h11', h12, h12', h13, h13', h14, h14', h15, h15'⟩ := h
  apply Subtype.ext
  rw [hu, hv, byte_of_digits _ _ h0 h0', byte_of_digits _ _ h1 h1', byte_of_digits _ _ h2 h2',
    byte_of_digits _ _ h3 h3', byte_of_digits _ _ h4 h4', byte_of_digits _ _ h5 h5',
    byte_of_digits _ _ h6 h6', byte_of_digits _ _ h7 h7', byte_of_digits _ _ h8 h8',
    byte_of_digits _ _ h9 h9', byte_of_digits _ _ h10 h10', byte_of_digits _ _ h11 h11',
    byte_of_digits _ _ h12 h12', byte_of_digits _ _ h13 h13', byte_of_digits _ _ h14 h14',
    byte_of_digits _ _ h15 h15']

/-- C10: the table-name suffix written by uuid_unparse_lower_fix. It has the 36
characters of the canonical lower-case text; the characters of that text at
the indexes 8, 13, 18 and 23 are its four hyphens and no other character of it
is a hyphen; the suffix has an underscore at these four indexes and the
character of the canonical text at every other index; so it holds no hyphen,
only digits, the letters a to f and underscores; and two different UUIDs give
two different suffixes. -/
theorem uuid_unparse_lower_fix_spec :
    (∀ u : uuid_t, (uuid_unparse_lower u).length = 36 ∧
      (uuid_unparse_lower_fix u).length = 36) ∧
    (∀ (u : uuid_t) (i : Nat), (uuid_unparse_lower_fix u)[i]? =
      if i = 8 ∨ i = 13 ∨ i = 18 ∨ i = 23 then some '_' else (uuid_unparse_lower u)[i]?) ∧
    (∀ (u : uuid_t) (i : Nat), (uuid_unparse_lower u)[i]? = some '-' ↔
      (i = 8 ∨ i = 13 ∨ i = 18 ∨ i = 23)) ∧
    (∀ u : uuid_t, '-' ∉ uuid_unparse_lower_fix u) ∧
    (∀ (u : uuid_t) (c : Char), c ∈ uuid_unparse_lower_fix u → suffix_char c = true) ∧
    (∀ u v : uuid_t, uuid_unparse_lower_fix u = uuid_unparse_lower_fix v → u = v) := by
  refine ⟨?_, ?_, ?_, ?_, ?_, uuid_unparse_lower_fix_inj⟩
  · intro u
    have h := uuid_unparse_lower_length u
    simp [uuid_unparse_lower_fix, h]
  · intro u i
    have h := uuid_unparse_lower_length u
    simp only [uuid_unparse_lower_fix, List.getElem?_set, List.length_set, h]
    by_cases h8 : i = 8
    · simp [h8]
    by_cases h13 : i = 13
    · simp [h13]
    by_cases h18 : i = 18
    · simp [h18]
    by_cases h23 : i = 23
    · simp [h23]
    simp [h8, h13, h18, h23, Ne.symm h8, Ne.symm h13, Ne.symm h18, Ne.symm h23]
  · intro u i
    obtain ⟨b0, b1, b2, b3, b4, b5, b6, b7, b8, b9, b10, b11, b12, b13, b14, b15, _, h, _⟩ :=
      uuid_fix_text u
    rw [h]
    have := fun b => (hexdigit_hi b).2
    have := fun b => (hexdigit_lo b).2
    constructor
    · intro hi
      by_contra hne
      have hlt : i < 36 := by
        by_contra hge
        rw [List.getElem?_eq_none (by simpa using hge)] at hi
        cases hi
      interval_cases i <;> simp_all
    · rintro (rfl | rfl | rfl | rfl) <;> rfl
  · intro u
    obtain ⟨b0, b1, b2, b3, b4, b5, b6, b7, b8, b9, b10, b11, b12, b13, b14, b15, _, _, h⟩ :=
      uuid_fix_text u
    rw [h]
    have h1 := fun b => (hexdigit_hi b).2
    have h2 := fun b => (hexdigit_lo b).2
    simp [Ne.symm (h1 _), Ne.symm (h2 _)]
  · intro u
    obtain ⟨b0, b1, b2, b3, b4, b5, b6, b7, b8, b9, b10, b11, b12, b13, b14, b15, _, _, h⟩ :=
      uuid_fix_text u
    rw [h]
    have h1 := fun b => (hexdigit_hi b).1
    have h2 := fun b => (hexdigit_lo b).1
    have h3 : suffix_char '_' = true := by decide
    simp only [List.mem_cons, List.mem_singleton, List.not_mem_nil, or_false,
      forall_eq_or_imp, forall_eq, h1, h2, h3, and_self]

/-- Witness of C10 on the UUID whose bytes all equal 7: the suffix is the
canonical text with its four hyphens replaced, and it holds no hyphen. -/
theorem uuid_unparse_lower_fix_spec_witness :
    uuid_unparse_lower (uuid_sample 7) = "07070707-0707-0707-0707-070707070707".data ∧
    uuid_unparse_lower_fix (uuid_sample 7) = "07070707_0707_0707_0707_070707070707".data ∧
    '-' ∉ uuid_unparse_lower_fix (uuid_sample 7) :=
  ⟨by decide, by decide, uuid_unparse_lower_fix_spec.2.2.2.1 (uuid_sample 7)⟩

/-! ## Chart staging table -/

theorem conflicts_pending_iff (X : uuid_t) (r : aclk_chart_row) :
    conflicts_pending (some X) r = true ↔ (r.uuid = some X ∧ r.status = some "pending") := by
  simp [conflicts_pending]

theorem do_update_keys (new : aclk_chart_payload_row) (u : Option uuid_t) (r : aclk_chart_row) :
    (if conflicts_pending u r then do_update new r else r).uuid = r.uuid ∧
    (if conflicts_pending u r then do_update new r else r).status = r.status := by
  split <;> simp [do_update]

theorem unique_uuid_status_map (new : aclk_chart_payload_row) (u : Option uuid_t)
    (rows : List aclk_chart_row) (h : unique_uuid_status rows) :
    unique_uuid_status
      (rows.map (fun r => if conflicts_pending u r then do_update new r else r)) := by
  unfold unique_uuid_status at *
  rw [List.pairwise_map]
  refine h.imp ?_
  intro a b hab
  rw [(do_update_keys new u a).1, (do_update_keys new u a).2,
    (do_update_keys new u b).1, (do_update_keys new u b).2]
  exact hab

theorem map_no_conflict (new : aclk_chart_payload_row) (u : Option uuid_t)
    (rows : List aclk_chart_row) (h : ∀ r ∈ rows, conflicts_pending u r = false) :
    rows.map (fun r => if conflicts_pending u r then do_update new r else r) = rows := by
  induction rows with
  | nil => rfl
  | cons a rest ih =>
    have ha := h a (List.mem_cons_self _ _)
    have hrest := ih (fun r hr => h r (List.mem_cons_of_mem _ hr))
    simp only [List.map_cons, ha, hrest]
    rfl

theorem largest_rowid_spec (rows : List aclk_chart_row) :
    (largest_rowid rows = none → rows = []) ∧
    (∀ m, largest_rowid rows = some m →
      (∀ r ∈ rows, r.sequence_id ≤ m) ∧ ∃ r ∈ rows, r.sequence_id = m) := by
  induction rows with
  | nil =>
    refine ⟨fun _ => rfl, ?_⟩
    intro m h
    simp [largest_rowid] at h
  | cons a rest ih =>
    obtain ⟨ih1, ih2⟩ := ih
    cases hrest : largest_rowid rest with
    | none =>
      have hnil := ih1 hrest
      subst hnil
      refine ⟨?_, ?_⟩
      · intro h; simp [largest_rowid] at h
      · intro m h
        simp only [largest_rowid, Option.some.injEq] at h
        subst h
        simp
    | some k =>
      obtain ⟨hle, r0, hr0, heq⟩ := ih2 k hrest
      refine ⟨?_, ?_⟩
      · intro h; simp [largest_rowid, hrest] at h
      · intro m h
        simp only [largest_rowid, hrest, Option.some.injEq] at h
        subst h
        refine ⟨?_, ?_⟩
        · intro r hr
          rcases List.mem_cons.mp hr with rfl | hr
          · exact le_max_left _ _
          · exact le_trans (hle r hr) (le_max_right _ _)
        · by_cases hak : k ≤ a.sequence_id
          · exact ⟨a, List.mem_cons_self _ _, (max_eq_left hak).symm⟩
          · refine ⟨r0, List.mem_cons_of_mem _ hr0, ?_⟩
            rw [heq, max_eq_right (le_of_lt (not_le.mp hak))]

theorem one_lt_largest_int64 : (1 : Int) < LARGEST_INT64 := by
  unfold LARGEST_INT64
  norm_num

theorem aclk_chart_new_rowid_some (t : aclk_chart_table)
    (hseq : t.seq < LARGEST_INT64)
    (hids : ∀ r ∈ t.rows, r.sequence_id < LARGEST_INT64) :
    ∃ v, aclk_chart_new_rowid t = some v ∧ t.seq < v ∧
      (∀ r ∈ t.rows, r.sequence_id < v) ∧ v ≤ LARGEST_INT64 ∧
      (v = t.seq + 1 ∨ v = 1 ∨ ∃ r ∈ t.rows, v = r.sequence_id + 1) := by
  have hne : ¬ t.seq = LARGEST_INT64 := ne_of_lt hseq
  have h1 := one_lt_largest_int64
  obtain ⟨hnone, hsome⟩ := largest_rowid_spec t.rows
  unfold aclk_chart_new_rowid
  cases hl : largest_rowid t.rows with
  | none =>
    have hnil := hnone hl
    simp only [hne, if_false]
    refine ⟨_, rfl, ?_, ?_, ?_, ?_⟩
    · split_ifs <;> omega
    · intro r hr; rw [hnil] at hr; cases hr
    · split_ifs <;> omega
    · split_ifs
      · left; rfl
      · right; left; rfl
  | some m =>
    obtain ⟨hle, r0, hr0, heq⟩ := hsome m hl
    have hm : ¬ m ≥ LARGEST_INT64 := by
      have := hids r0 hr0
      omega
    simp only [hm, hne, if_false]
    refine ⟨_, rfl, ?_, ?_, ?_, ?_⟩
    · split_ifs <;> omega
    · intro r hr
      have := hle r hr
      split_ifs <;> omega
    · split_ifs <;> omega
    · split_ifs
      · left; rfl
      · right; right; exact ⟨r0, hr0, by rw [heq]⟩

theorem trigger_update (now : Int) (new : aclk_chart_payload_row) (t : aclk_chart_table)
    (v : Int) (pre post : List aclk_chart_row) (r : aclk_chart_row)
    (hv : aclk_chart_new_rowid t = some v)
    (hrows : t.rows = pre ++ r :: post)
    (hr : conflicts_pending new.uuid r = true)
    (hpre : ∀ a ∈ pre, conflicts_pending new.uuid a = false)
    (hpost : ∀ a ∈ post, conflicts_pending new.uuid a = false) :
    trigger_aclk_chart_payload now new t =
      some { rows := pre ++ do_update new r :: post, seq := v } := by
  have hany : t.rows.any (conflicts_pending new.uuid) = true := by
    rw [List.any_eq_true]
    exact ⟨r, by rw [hrows]; simp, hr⟩
  unfold trigger_aclk_chart_payload
  simp only [hv, hany, if_true]
  simp only [hrows, List.map_append, List.map_cons, hr, if_true,
    map_no_conflict new new.uuid pre hpre, map_no_conflict new new.uuid post hpost]

theorem trigger_insert (now : Int) (new : aclk_chart_payload_row) (t : aclk_chart_table)
    (v : Int) (hv : aclk_chart_new_rowid t = some v)
    (h : ∀ a ∈ t.rows, conflicts_pending new.uuid a = false) :
    trigger_aclk_chart_payload now new t =
      some { rows := t.rows ++ [{ sequence_id := v,
                                  date_created := some now,
                                  date_updated := none,
                                  date_submitted := none,
                                  status := some "pending",
                                  uuid := new.uuid,
                                  type := new.type,
                                  unique_id := new.unique_id,
                                  update_count := .integer 1 }],
             seq := v } := by
  have hany : t.rows.any (conflicts_pending new.uuid) = false := by
    rw [List.any_eq_false]
    intro a ha
    simp [h a ha]
  unfold trigger_aclk_chart_payload
  simp only [hv, hany]
  rfl

theorem trigger_full (now : Int) (new : aclk_chart_payload_row) (t : aclk_chart_table)
    (h : t.seq = LARGEST_INT64 ∨ ∃ r ∈ t.rows, r.sequence_id = LARGEST_INT64) :
    trigger_aclk_chart_payload now new t = none := by
  have hrow : aclk_chart_new_rowid t = none := by
    unfold aclk_chart_new_rowid
    obtain ⟨hnone, hsome⟩ := largest_rowid_spec t.rows
    cases hl : largest_rowid t.rows with
    | none =>
      rcases h with h | ⟨r, hr, _⟩
      · simp [h]
      · rw [hnone hl] at hr; cases hr
    | some m =>
      by_cases hm : m ≥ LARGEST_INT64
      · simp [hm]
      · rcases h with h | ⟨r, hr, he⟩
        · simp [hm, h]
        · have := (hsome m hl).1 r hr
          omega
  unfold trigger_aclk_chart_payload
  rw [hrow]

/-- C1: the dedup upsert of the chart staging table. Take a table that satisfies
`unique(uuid, status)` and whose rowids and `sqlite_sequence` counter are below
the largest 64-bit integer, so that the insert of the trigger can draw a
rowid. Staging the uuid X succeeds. While a pending row for X exists, every
row stays in place and untouched except that one, which keeps its sequence id,
status and dates, takes the new `unique_id` and has its `update_count` passed
through `update_count + 1`: an integer count below the largest integer grows
by exactly 1. When no pending row for X exists, one pending row for X is
appended, with `update_count` 1 and a sequence id above all the ones in use.
Staging X twice from a table without a pending row for X (with room for two
rowids) leaves exactly one pending row for X, with `update_count` 2. The table
again satisfies `unique(uuid, status)`. -/
theorem chart_staging_dedup (now : Int) (new : aclk_chart_payload_row)
    (t : aclk_chart_table) (X : uuid_t)
    (hX : new.uuid = some X) (hinv : unique_uuid_status t.rows)
    (hseq : t.seq < LARGEST_INT64)
    (hids : ∀ r ∈ t.rows, r.sequence_id < LARGEST_INT64) :
    ∃ t1, trigger_aclk_chart_payload now new t = some t1 ∧
      (∀ r ∈ t.rows, r.uuid = some X → r.status = some "pending" →
        ∃ pre post, t.rows = pre ++ r :: post ∧
          t1.rows = pre ++ { r with unique_id := new.unique_id,
                                    update_count := update_count_add_one r.update_count }
                      :: post ∧
          t1.rows.length = t.rows.length ∧
          (∀ c : Int, r.update_count = .integer c → c < LARGEST_INT64 →
            t1.rows = pre ++ { r with unique_id := new.unique_id,
                                      update_count := .integer (c + 1) } :: post)) ∧
      ((∀ r ∈ t.rows, ¬ (r.uuid = some X ∧ r.status = some "pending")) →
        ∃ row, t1.rows = t.rows ++ [row] ∧
          row.uuid = some X ∧ row.status = some "pending" ∧
          row.update_count = .integer 1 ∧ row.unique_id = new.unique_id ∧
          (∀ a ∈ t.rows, a.sequence_id < row.sequence_id)) ∧
      ((∀ r ∈ t.rows, ¬ (r.uuid = some X ∧ r.status = some "pending")) →
        t.seq + 1 < LARGEST_INT64 → (∀ r ∈ t.rows, r.sequence_id + 1 < LARGEST_INT64) →
        ∀ (now2 : Int) (new2 : aclk_chart_payload_row), new2.uuid = some X →
        ∃ t2 row, trigger_aclk_chart_payload now2 new2 t1 = some t2 ∧
          t2.rows = t.rows ++ [row] ∧
          t2.rows.filter (fun r => r.uuid == some X && r.status == some "pending") = [row] ∧
          row.update_count = .integer 2 ∧ row.unique_id = new2.unique_id) ∧
      unique_uuid_status t1.rows := by
  obtain ⟨v, hv, hvseq, hvids, hvle, hvform⟩ := aclk_chart_new_rowid_some t hseq hids
  have hnone : (∀ r ∈ t.rows, ¬ (r.uuid = some X ∧ r.status = some "pending")) →
      ∀ a ∈ t.rows, conflicts_pending (some X) a = false := by
    intro h a ha
    have := h a ha
    rw [← conflicts_pending_iff] at this
    simpa using this
  by_cases hany : ∃ r ∈ t.rows, r.uuid = some X ∧ r.status = some "pending"
  · -- the update path
    obtain ⟨r, hr, hu, hs⟩ := hany
    obtain ⟨pre, post, hrows⟩ := List.append_of_mem hr
    have hc : conflicts_pending new.uuid r = true := by
      rw [hX, conflicts_pending_iff]; exact ⟨hu, hs⟩
    have hp := hinv
    unfold unique_uuid_status at hp
    rw [hrows, List.pairwise_append] at hp
    obtain ⟨_, hrp, hcross⟩ := hp
    have hpre : ∀ a ∈ pre, conflicts_pending new.uuid a = false := by
      intro a ha
      by_contra hne
      have hca : conflicts_pending new.uuid a = true := by simpa using hne
      rw [hX, conflicts_pending_iff] at hca
      apply hcross a ha r (List.mem_cons_self _ _)
      simp [hca.1, hca.2, hu, hs]
    have hpost : ∀ a ∈ post, conflicts_pending new.uuid a = false := by
      intro a ha
      by_contra hne
      have hca : conflicts_pending new.uuid a = true := by simpa using hne
      rw [hX, conflicts_pending_iff] at hca
      apply (List.pairwise_cons.mp hrp).1 a ha
      simp [hca.1, hca.2, hu, hs]
    have h := trigger_update now new t v pre post r hv hrows hc hpre hpost
    refine ⟨_, h, ?_, ?_, ?_, ?_⟩
    · intro r2 hr2 hu2 hs2
      have hr2eq : r2 = r := by
        rw [hrows, List.mem_append, List.mem_cons] at hr2
        have hc2 : conflicts_pending new.uuid r2 = true := by
          rw [hX, conflicts_pending_iff]; exact ⟨hu2, hs2⟩
        rcases hr2 with h2 | h2 | h2
        · rw [hpre r2 h2] at hc2; cases hc2
        · exact h2
        · rw [hpost r2 h2] at hc2; cases hc2
      subst hr2eq
      refine ⟨pre, post, hrows, rfl, ?_, ?_⟩
      · rw [hrows]; simp
      · intro c hcount hlt
        simp only [do_update, hcount, update_count_add_one, hlt, if_true]
    · intro hno
      exact absurd ⟨hu, hs⟩ (hno r hr)
    · intro hno
      exact absurd ⟨hu, hs⟩ (hno r hr)
    · have := unique_uuid_status_map new new.uuid t.rows hinv
      simp only [hrows, List.map_append, List.map_cons, hc, if_true,
        map_no_conflict new new.uuid pre hpre, map_no_conflict new new.uuid post hpost] at this
      exact this
  · -- the insert path
    have hno : ∀ r ∈ t.rows, ¬ (r.uuid = some X ∧ r.status = some "pending") := by
      intro r hr hcon
      exact hany ⟨r, hr, hcon⟩
    have hnc : ∀ a ∈ t.rows, conflicts_pending new.uuid a = false := by
      rw [hX]; exact hnone hno
    have h := trigger_insert now new t v hv hnc
    refine ⟨_, h, ?_, ?_, ?_, ?_⟩
    · intro r hr hu hs
      exact absurd ⟨hu, hs⟩ (hno r hr)
    · intro _
      exact ⟨_, rfl, hX, rfl, rfl, rfl, hvids⟩
    · intro _ hseq2 hids2 now2 new2 hX2
      have hv1 : v < LARGEST_INT64 := by
        rcases hvform with h1 | h1 | ⟨r, hr, h1⟩
        · omega
        · have := one_lt_largest_int64; omega
        · have := hids2 r hr; omega
      obtain ⟨v2, hv2, _⟩ := aclk_chart_new_rowid_some
        { rows := t.rows ++ [{ sequence_id := v, date_created := some now,
                               date_updated := none, date_submitted := none,
                               status := some "pending", uuid := new.uuid, type := new.type,
                               unique_id := new.unique_id, update_count := .integer 1 }],
          seq := v } hv1 (by
            intro r hr
            simp only [List.mem_append, List.mem_singleton] at hr
            rcases hr with hr | hr
            · exact hids r hr
            · rw [hr]; exact hv1)
      have hc : conflicts_pending new2.uuid
          { sequence_id := v, date_created := some now, date_updated := none,
            date_submitted := none, status := some "pending", uuid := new.uuid,
            type := new.type, unique_id := new.unique_id,
            update_count := update_count_value.integer 1 } = true := by
        rw [hX2, conflicts_pending_iff]; exact ⟨hX, rfl⟩
      have hpre : ∀ a ∈ t.rows, conflicts_pending new2.uuid a = false := by
        rw [hX2]; exact hnone hno
      have hupd := trigger_update now2 new2 _ v2 t.rows [] _ hv2 rfl hc hpre
        (by intro a ha; cases ha)
      refine ⟨_, _, hupd, rfl, ?_, ?_, rfl⟩
      · simp only [List.filter_append]
        have hf : t.rows.filter (fun r => r.uuid == some X && r.status == some "pending")
            = [] := by
          rw [List.filter_eq_nil_iff]
          intro r hr
          have := hno r hr
          simpa using this
        rw [hf]
        simp [do_update, hX]
      · have h1 := one_lt_largest_int64
        simp only [do_update, update_count_add_one, h1, if_true]
        rfl
    · unfold unique_uuid_status at *
      rw [List.pairwise_append]
      refine ⟨hinv, List.pairwise_singleton _ _, ?_⟩
      intro a ha b hb
      rw [List.mem_singleton] at hb
      subst hb
      intro hcon
      apply hno a ha
      simp only at hcon
      exact ⟨by rw [hcon.2.2.1, hX], hcon.2.2.2⟩

theorem sample_chart_table_unique : unique_uuid_status sample_chart_table.rows := by
  unfold unique_uuid_status sample_chart_table
  decide

/-- Witness of C1 on a table holding a sent and a pending row for the staged
uuid: the pending row, of sequence id 2, goes from `update_count` 3 to 4 and
takes the new `unique_id`; nothing else changes in the rows, the counter of
`sqlite_sequence` goes from 5 to 6, and the constraint still holds. -/
theorem chart_staging_dedup_witness :
    unique_uuid_status sample_chart_table.rows ∧
    sample_chart_table.seq < LARGEST_INT64 ∧
    (∀ r ∈ sample_chart_table.rows, r.sequence_id < LARGEST_INT64) ∧
    (trigger_aclk_chart_payload 100 sample_payload_row sample_chart_table).map
        (fun t1 => (t1.rows, t1.seq)) =
      some ([{ sequence_id := 1, date_created := some 50, date_updated := none,
               date_submitted := some 60, status := some "sent",
               uuid := some (uuid_sample 7), type := some 0,
               unique_id := some (uuid_sample 1), update_count := .integer 1 },
             { sequence_id := 2, date_created := some 70, date_updated := none,
               date_submitted := none, status := some "pending",
               uuid := some (uuid_sample 7), type := some 0,
               unique_id := some (uuid_sample 4), update_count := .integer 4 },
             { sequence_id := 3, date_created := some 80, date_updated := none,
               date_submitted := none, status := some "pending",
               uuid := some (uuid_sample 9), type := some 1,
               unique_id := some (uuid_sample 3), update_count := .integer 1 }], 6) ∧
    ∃ t1, trigger_aclk_chart_payload 100 sample_payload_row sample_chart_table = some t1 ∧
      unique_uuid_status t1.rows := by
  have hseq : sample_chart_table.seq < LARGEST_INT64 := by decide
  have hids : ∀ r ∈ sample_chart_table.rows, r.sequence_id < LARGEST_INT64 := by decide
  obtain ⟨t1, h1, _, _, _, h5⟩ :=
    chart_staging_dedup 100 sample_payload_row sample_chart_table (uuid_sample 7) rfl
      sample_chart_table_unique hseq hids
  exact ⟨sample_chart_table_unique, hseq, hids, by decide, t1, h1, h5⟩

/-! ## Reading the tree -/

theorem json_walk_append (stack : List String) (a b : List JSON_CALL) :
    json_walk stack (a ++ b) =
      json_walk stack a ++ json_walk (a.foldl json_stack_step stack) b := by
  induction a generalizing stack with
  | nil => rfl
  | cons c rest ih => simp [json_walk, ih]

theorem dyncfg_to_json_stack (stack : List String) (df : DYNCFG) (id : String) :
    (dyncfg_to_json df id).foldl json_stack_step stack = stack := by
  unfold dyncfg_to_json
  cases df.payload with
  | none => simp [json_stack_step]
  | some p =>
    by_cases h : p.len = 0 <;> simp [json_stack_step, h]

theorem dyncfg_tree_loop_walk_eq (items : List DICTIONARY_ITEM) :
    ∀ (i : Nat) (last : Option String), (i = 0 ↔ last = none) →
      json_walk (tree_stack last) (dyncfg_tree_loop_calls i last items)
        = dyncfg_tree_loop_walk i last items ∧
      (dyncfg_tree_loop_calls i last items).foldl json_stack_step (tree_stack last)
        = tree_stack (items.foldl (fun _ item => some item.value.path) last) := by
  induction items with
  | nil => intro i last _; exact ⟨rfl, rfl⟩
  | cons item rest ih =>
    intro i last hinv
    have hnext := ih (i + 1) (some item.value.path) (by simp)
    have hhdr : json_walk (tree_stack last)
          (if some item.value.path ≠ last then
            (if i ≠ 0 then [JSON_CALL.buffer_json_object_close] else []) ++
              [JSON_CALL.buffer_json_member_add_object item.value.path]
          else []) =
          (if some item.value.path ≠ last then
            (if i ≠ 0 then [(tree_stack last, JSON_CALL.buffer_json_object_close)] else []) ++
              [(["tree"], JSON_CALL.buffer_json_member_add_object item.value.path)]
          else []) ∧
        (if some item.value.path ≠ last then
            (if i ≠ 0 then [JSON_CALL.buffer_json_object_close] else []) ++
              [JSON_CALL.buffer_json_member_add_object item.value.path]
          else []).foldl json_stack_step (tree_stack last) = [item.value.path, "tree"] := by
      by_cases hp : some item.value.path = last
      · subst hp
        simp [json_walk, tree_stack]
      · by_cases hi : i = 0
        · have hl : last = none := hinv.mp hi
          subst hl
          simp [json_walk, tree_stack, json_stack_step, hi]
        · have hl : last ≠ none := fun h => hi (hinv.mpr h)
          obtain ⟨l, rfl⟩ := Option.ne_none_iff_exists'.mp hl
          simp [json_walk, tree_stack, json_stack_step, hi, hp]
    constructor
    · simp only [dyncfg_tree_loop_calls, dyncfg_tree_loop_walk, json_walk_append,
        List.foldl_append, hhdr.1, hhdr.2, dyncfg_to_json_stack]
      rw [← hnext.1]
      rfl
    · simp only [dyncfg_tree_loop_calls, List.foldl_append, hhdr.2, dyncfg_to_json_stack,
        List.foldl_cons]
      exact hnext.2

/-! ## The rendering loop -/

theorem dyncfg_tree_step_wb (i : Nat) (item : DICTIONARY_ITEM) (st : TREE_LOOP) :
    (dyncfg_tree_step i item st).wb =
      st.wb ++ ((if some item.value.path ≠ st.last_path then
          (if i ≠ 0 then [JSON_CALL.buffer_json_object_close] else []) ++
            [JSON_CALL.buffer_json_member_add_object item.value.path]
        else []) ++ dyncfg_to_json item.value item.name) ∧
    (dyncfg_tree_step i item st).last_path = some item.value.path := by
  unfold dyncfg_tree_step
  simp only []
  split_ifs <;> simp_all

theorem dyncfg_tree_step_counters (i : Nat) (item : DICTIONARY_ITEM) (st : TREE_LOOP) :
    (dyncfg_tree_step i item st).restart_required =
      (if (decide (item.value.status ≠ DYNCFG_STATUS.ORPHAN) && item.value.restart_required)
          = true
        then size_t_incr st.restart_required else st.restart_required) ∧
    (dyncfg_tree_step i item st).plugin_rejected =
      (if (decide (item.value.status ≠ DYNCFG_STATUS.ORPHAN) && item.value.plugin_rejected)
          = true
        then size_t_incr st.plugin_rejected else st.plugin_rejected) ∧
    (dyncfg_tree_step i item st).status_failed =
      (if (decide (item.value.status ≠ DYNCFG_STATUS.ORPHAN) &&
            decide (item.value.status = DYNCFG_STATUS.FAILED)) = true
        then size_t_incr st.status_failed else st.status_failed) ∧
    (dyncfg_tree_step i item st).status_incomplete =
      (if (decide (item.value.status ≠ DYNCFG_STATUS.ORPHAN) &&
            decide (item.value.status = DYNCFG_STATUS.INCOMPLETE)) = true
        then size_t_incr st.status_incomplete else st.status_incomplete) := by
  by_cases hpath : some item.value.path = st.last_path <;>
    cases hs : item.value.status <;>
    cases hr : item.value.restart_required <;>
    cases hp : item.value.plugin_rejected <;>
    simp [dyncfg_tree_step, hpath, hs, hr, hp]

theorem dyncfg_tree_loop_wb (items : List DICTIONARY_ITEM) :
    ∀ (i : Nat) (st : TREE_LOOP),
      (dyncfg_tree_loop i items st).wb =
        st.wb ++ dyncfg_tree_loop_calls i st.last_path items := by
  induction items with
  | nil => intro i st; simp [dyncfg_tree_loop, dyncfg_tree_loop_calls]
  | cons item rest ih =>
    intro i st
    simp only [dyncfg_tree_loop, dyncfg_tree_loop_calls]
    rw [ih, (dyncfg_tree_step_wb i item st).1, (dyncfg_tree_step_wb i item st).2]
    simp only [List.append_assoc]

theorem mod_count {α : Type} (M : Nat) (p : α → Bool) (items : List α) (x : Nat) :
    (items.foldl (fun acc item => if p item = true then (acc + 1) % M else acc) x)
      = if (items.filter p).length = 0 then x
        else (x + (items.filter p).length) % M := by
  induction items generalizing x with
  | nil => simp
  | cons item rest ih =>
    simp only [List.foldl_cons, List.filter_cons]
    rw [ih]
    by_cases hp : p item = true
    · simp only [hp, if_true, List.length_cons]
      by_cases h0 : (rest.filter p).length = 0
      · simp [h0]
      · simp only [h0, if_false, Nat.add_one_ne_zero]
        rw [Nat.add_mod, Nat.mod_mod, ← Nat.add_mod]
        congr 1
        omega
    · simp only [hp, if_false]
      simp

theorem dyncfg_tree_loop_counters (items : List DICTIONARY_ITEM) :
    ∀ (i : Nat) (st : TREE_LOOP),
      (dyncfg_tree_loop i items st).restart_required =
        items.foldl (fun acc item =>
          if (decide (item.value.status ≠ DYNCFG_STATUS.ORPHAN) && item.value.restart_required)
            = true then (acc + 1) % 2 ^ 64 else acc) st.restart_required ∧
      (dyncfg_tree_loop i items st).plugin_rejected =
        items.foldl (fun acc item =>
          if (decide (item.value.status ≠ DYNCFG_STATUS.ORPHAN) && item.value.plugin_rejected)
            = true then (acc + 1) % 2 ^ 64 else acc) st.plugin_rejected ∧
      (dyncfg_tree_loop i items st).status_failed =
        items.foldl (fun acc item =>
          if (decide (item.value.status ≠ DYNCFG_STATUS.ORPHAN) &&
              decide (item.value.status = DYNCFG_STATUS.FAILED))
            = true then (acc + 1) % 2 ^ 64 else acc) st.status_failed ∧
      (dyncfg_tree_loop i items st).status_incomplete =
        items.foldl (fun acc item =>
          if (decide (item.value.status ≠ DYNCFG_STATUS.ORPHAN) &&
              decide (item.value.status = DYNCFG_STATUS.INCOMPLETE))
            = true then (acc + 1) % 2 ^ 64 else acc) st.status_incomplete := by
  induction items with
  | nil => intro i st; exact ⟨rfl, rfl, rfl, rfl⟩
  | cons item rest ih =>
    intro i st
    obtain ⟨h1, h2, h3, h4⟩ := dyncfg_tree_step_counters i item st
    obtain ⟨k1, k2, k3, k4⟩ := ih (i + 1) (dyncfg_tree_step i item st)
    simp only [dyncfg_tree_loop, List.foldl_cons]
    rw [k1, k2, k3, k4, h1, h2, h3, h4]
    exact ⟨rfl, rfl, rfl, rfl⟩

theorem to_json_projections (path : String) (df : DYNCFG) (id : String) :
    (json_walk [path, "tree"] (dyncfg_to_json df id)).filterMap path_key_of = [] ∧
    (json_walk [path, "tree"] (dyncfg_to_json df id)).filter path_close_of = [] ∧
    (json_walk [path, "tree"] (dyncfg_to_json df id)).filterMap entry_of = [(path, id)] ∧
    (json_walk [path, "tree"] (dyncfg_to_json df id)).filterMap (node_string_of "status")
      = [(path, id, JSON_STRING.dyncfg_id2status df.status)] ∧
    (json_walk [path, "tree"] (dyncfg_to_json df id)).filterMap
        (node_boolean_of "plugin_rejected") = [(path, id, df.restart_required)] ∧
    (json_walk [path, "tree"] (dyncfg_to_json df id)).filterMap
        (node_boolean_of "restart_required") = [(path, id, df.restart_required)] ∧
    (json_walk [path, "tree"] (dyncfg_to_json df id)).filterMap attention_of = [] := by
  unfold dyncfg_to_json
  cases df.payload with
  | none =>
    simp [json_walk, json_stack_step, path_key_of, path_close_of, entry_of, node_string_of,
      node_boolean_of, attention_of]
  | some p =>
    by_cases h : p.len = 0 <;>
      simp [json_walk, json_stack_step, path_key_of, path_close_of, entry_of, node_string_of,
        node_boolean_of, attention_of, h]

theorem loop_header_projections (i : Nat) (last : Option String) (path : String) :
    (if some path ≠ last then
        (if i ≠ 0 then [(tree_stack last, JSON_CALL.buffer_json_object_close)] else []) ++
          [(["tree"], JSON_CALL.buffer_json_member_add_object path)]
      else []).filterMap path_key_of = (if some path ≠ last then [path] else []) ∧
    (if some path ≠ last then
        (if i ≠ 0 then [(tree_stack last, JSON_CALL.buffer_json_object_close)] else []) ++
          [(["tree"], JSON_CALL.buffer_json_member_add_object path)]
      else []).filterMap entry_of = [] ∧
    (∀ key, (if some path ≠ last then
        (if i ≠ 0 then [(tree_stack last, JSON_CALL.buffer_json_object_close)] else []) ++
          [(["tree"], JSON_CALL.buffer_json_member_add_object path)]
      else []).filterMap (node_string_of key) = []) ∧
    (∀ key, (if some path ≠ last then
        (if i ≠ 0 then [(tree_stack last, JSON_CALL.buffer_json_object_close)] else []) ++
          [(["tree"], JSON_CALL.buffer_json_member_add_object path)]
      else []).filterMap (node_boolean_of key) = []) ∧
    (if some path ≠ last then
        (if i ≠ 0 then [(tree_stack last, JSON_CALL.buffer_json_object_close)] else []) ++
          [(["tree"], JSON_CALL.buffer_json_member_add_object path)]
      else []).filterMap attention_of = [] ∧
    ((if some path ≠ last then
        (if i ≠ 0 then [(tree_stack last, JSON_CALL.buffer_json_object_close)] else []) ++
          [(["tree"], JSON_CALL.buffer_json_member_add_object path)]
      else []).filter path_close_of).length =
      (if some path ≠ last ∧ i ≠ 0 ∧ last ≠ none then 1 else 0) := by
  by_cases hp : some path = last <;> by_cases hi : i = 0 <;> cases last <;>
    simp_all [tree_stack, path_key_of, path_close_of, entry_of, node_string_of,
      node_boolean_of, attention_of]

theorem loop_walk_projections (items : List DICTIONARY_ITEM) :
    ∀ (i : Nat) (last : Option String),
      (dyncfg_tree_loop_walk i last items).filterMap path_key_of
        = opened_paths last (items.map (fun item => item.value.path)) ∧
      (dyncfg_tree_loop_walk i last items).filterMap entry_of
        = items.map (fun item => (item.value.path, item.name)) ∧
      (dyncfg_tree_loop_walk i last items).filterMap (node_string_of "status")
        = items.map (fun item =>
            (item.value.path, item.name, JSON_STRING.dyncfg_id2status item.value.status)) ∧
      (dyncfg_tree_loop_walk i last items).filterMap (node_boolean_of "plugin_rejected")
        = items.map (fun item => (item.value.path, item.name, item.value.restart_required)) ∧
      (dyncfg_tree_loop_walk i last items).filterMap (node_boolean_of "restart_required")
        = items.map (fun item => (item.value.path, item.name, item.value.restart_required)) ∧
      (dyncfg_tree_loop_walk i last items).filterMap attention_of = [] := by
  induction items with
  | nil => intro i last; simp [dyncfg_tree_loop_walk, opened_paths]
  | cons item rest ih =>
    intro i last
    obtain ⟨h1, h2, h3, h4, h5, h6⟩ := ih (i + 1) (some item.value.path)
    obtain ⟨a1, a2, a3, a4, a5, _⟩ := loop_header_projections i last item.value.path
    obtain ⟨b1, _, b3, b4, b5, b6, b7⟩ := to_json_projections item.value.path item.value item.name
    simp only [dyncfg_tree_loop_walk, List.filterMap_append, List.map_cons, opened_paths,
      h1, h2, h3, h4, h5, h6, a1, a2, a3, a4, a5, b1, b3, b4, b5, b6, b7]
    simp

theorem loop_walk_closes (items : List DICTIONARY_ITEM) :
    ∀ (i : Nat) (last : Option String), (i = 0 ↔ last = none) →
      ((dyncfg_tree_loop_walk i last items).filter path_close_of).length
          + (if i = 0 ∧ items ≠ [] then 1 else 0)
        = (opened_paths last (items.map (fun item => item.value.path))).length := by
  induction items with
  | nil => intro i last _; simp [dyncfg_tree_loop_walk, opened_paths]
  | cons item rest ih =>
    intro i last hinv
    have h := ih (i + 1) (some item.value.path) (by simp)
    obtain ⟨_, _, _, _, _, a6⟩ := loop_header_projections i last item.value.path
    obtain ⟨_, b2, _⟩ := to_json_projections item.value.path item.value item.name
    simp only [dyncfg_tree_loop_walk, List.filter_append, List.length_append, List.map_cons,
      opened_paths, a6, b2, List.length_nil]
    simp only [Nat.add_one_ne_zero, false_and, if_false, Nat.add_zero] at h
    rw [h]
    by_cases hi : i = 0
    · have hl : last = none := hinv.mp hi
      subst hl
      simp [hi]
      omega
    · have hl : last ≠ none := fun h => hi (hinv.mpr h)
      by_cases hp : some item.value.path = last
      · simp [hi, hp]
      · simp [hi, hp, hl]

/-! ## The comparator -/

theorem strcmp_neg (a b : String) : strcmp b a = - strcmp a b :=
  strcmp_chars_neg a.data b.data

theorem strcmp_trans (a b c : String) (hab : strcmp a b ≤ 0) (hbc : strcmp b c ≤ 0) :
    strcmp a c ≤ 0 :=
  strcmp_chars_trans a.data b.data c.data hab hbc

theorem dyncfg_tree_compar_eq_zero (a b : DICTIONARY_ITEM) :
    dyncfg_tree_compar a b = 0 ↔ (a.value.path = b.value.path ∧ a.name = b.name) := by
  unfold dyncfg_tree_compar string_cmp
  simp only []
  by_cases h : strcmp a.value.path b.value.path = 0
  · rw [if_pos h, strcmp_eq_zero]
    rw [strcmp_eq_zero] at h
    simp [h]
  · rw [if_neg h]
    rw [strcmp_eq_zero] at h
    simp [h]
    rwa [strcmp_eq_zero]

theorem dyncfg_tree_compar_neg (a b : DICTIONARY_ITEM) :
    dyncfg_tree_compar b a = - dyncfg_tree_compar a b := by
  unfold dyncfg_tree_compar string_cmp
  simp only []
  rw [strcmp_neg a.value.path b.value.path, strcmp_neg a.name b.name]
  by_cases h : strcmp a.value.path b.value.path = 0
  · simp [h]
  · simp [h]

theorem dyncfg_tree_compar_le (a b : DICTIONARY_ITEM) :
    dyncfg_tree_compar a b ≤ 0 ↔
      (strcmp a.value.path b.value.path < 0 ∨
        (a.value.path = b.value.path ∧ strcmp a.name b.name ≤ 0)) := by
  unfold dyncfg_tree_compar string_cmp
  simp only []
  by_cases h : strcmp a.value.path b.value.path = 0
  · rw [if_pos h]
    have hp := (strcmp_eq_zero _ _).mp h
    constructor
    · intro hn; right; exact ⟨hp, hn⟩
    · rintro (hlt | ⟨_, hn⟩)
      · omega
      · exact hn
  · rw [if_neg h]
    have hp : ¬ a.value.path = b.value.path := fun e => h ((strcmp_eq_zero _ _).mpr e)
    simp only [hp, false_and, or_false]
    omega

theorem dyncfg_tree_compar_trans (a b c : DICTIONARY_ITEM)
    (hab : dyncfg_tree_compar a b ≤ 0) (hbc : dyncfg_tree_compar b c ≤ 0) :
    dyncfg_tree_compar a c ≤ 0 := by
  rw [dyncfg_tree_compar_le] at hab hbc ⊢
  have h1 : strcmp a.value.path b.value.path ≤ 0 := by
    rcases hab with h | ⟨h, _⟩
    · omega
    · rw [(strcmp_eq_zero _ _).mpr h]
  have h2 : strcmp b.value.path c.value.path ≤ 0 := by
    rcases hbc with h | ⟨h, _⟩
    · omega
    · rw [(strcmp_eq_zero _ _).mpr h]
  have h3 := strcmp_trans _ _ _ h1 h2
  by_cases hz : strcmp a.value.path c.value.path = 0
  · right
    have hac := (strcmp_eq_zero _ _).mp hz
    refine ⟨hac, ?_⟩
    have hba : strcmp b.value.path a.value.path ≤ 0 := by rw [hac]; exact h2
    rw [strcmp_neg a.value.path b.value.path] at hba
    have hab0 : strcmp a.value.path b.value.path = 0 := by omega
    have hpab := (strcmp_eq_zero _ _).mp hab0
    have hbc0 : strcmp b.value.path c.value.path = 0 := by
      rw [(strcmp_eq_zero _ _)]; rw [← hpab]; exact hac
    rcases hab with h | ⟨_, hn1⟩
    · omega
    · rcases hbc with h | ⟨_, hn2⟩
      · omega
      · exact strcmp_trans _ _ _ hn1 hn2
  · left
    omega

theorem dyncfg_tree_compar_total (a b : DICTIONARY_ITEM) :
    dyncfg_tree_compar a b ≤ 0 ∨ dyncfg_tree_compar b a ≤ 0 := by
  rw [dyncfg_tree_compar_neg a b]
  omega

theorem dyncfg_tree_compar_trans_lt (a b c : DICTIONARY_ITEM)
    (hab : dyncfg_tree_compar a b < 0) (hbc : dyncfg_tree_compar b c < 0) :
    dyncfg_tree_compar a c < 0 := by
  have hle := dyncfg_tree_compar_trans a b c (le_of_lt hab) (le_of_lt hbc)
  by_contra hnot
  have hz : dyncfg_tree_compar a c = 0 := by omega
  have hca : dyncfg_tree_compar c a ≤ 0 := by
    rw [dyncfg_tree_compar_neg a c, hz]; simp
  have hcb := dyncfg_tree_compar_trans c a b hca (le_of_lt hab)
  rw [dyncfg_tree_compar_neg b c] at hcb
  omega

theorem qsort_sorted (items : List DICTIONARY_ITEM) :
    (qsort dyncfg_tree_compar items).Pairwise (fun a b => dyncfg_tree_compar a b ≤ 0) := by
  haveI : IsTotal DICTIONARY_ITEM (fun a b => dyncfg_tree_compar a b ≤ 0) :=
    ⟨dyncfg_tree_compar_total⟩
  haveI : IsTrans DICTIONARY_ITEM (fun a b => dyncfg_tree_compar a b ≤ 0) :=
    ⟨dyncfg_tree_compar_trans⟩
  exact List.sorted_insertionSort (fun a b => dyncfg_tree_compar a b ≤ 0) items

theorem qsort_perm (items : List DICTIONARY_ITEM) :
    (qsort dyncfg_tree_compar items).Perm items :=
  List.perm_insertionSort _ items

/-! ## The selection -/

theorem uuid_compare_bytes_eq_zero (x y : List (Fin 256)) (h : x.length = y.length) :
    uuid_compare_bytes x y = 0 ↔ x = y := by
  induction x generalizing y with
  | nil =>
    cases y with
    | nil => simp [uuid_compare_bytes]
    | cons b ys => simp at h
  | cons a xs ih =>
    cases y with
    | nil => simp at h
    | cons b ys =>
      simp only [List.length_cons, Nat.add_right_cancel_iff] at h
      simp only [uuid_compare_bytes, List.cons.injEq]
      by_cases h1 : a < b
      · simp [h1, ne_of_lt h1]
      · by_cases h2 : b < a
        · simp [h1, h2, ne_of_gt h2]
        · have hab : a = b := le_antisymm (not_lt.mp h2) (not_lt.mp h1)
          simp [h1, h2, hab, ih ys h]

theorem uuid_memcmp_eq_zero (a b : uuid_t) : uuid_memcmp a b = 0 ↔ a = b := by
  unfold uuid_memcmp
  rw [uuid_compare_bytes_eq_zero a.val b.val (by rw [a.property, b.property])]
  exact ⟨Subtype.ext, fun h => by rw [h]⟩

theorem strncmp_eq_zero (path parent : String) :
    strncmp path parent (strlen parent) = 0 ↔ parent.data <+: path.data := by
  unfold strncmp strlen
  exact strncmp_chars_eq_zero path.data parent.data

theorem dyncfg_tree_select_eq (rrd_function_available : RRDHOST → String → Bool)
    (host : RRDHOST) (parent : String) (item : DICTIONARY_ITEM) :
    (dyncfg_tree_select rrd_function_available host parent item).2
      = dyncfg_selected host parent item ∧
    (dyncfg_selected host parent item = true →
      (dyncfg_tree_select rrd_function_available host parent item).1
        = dyncfg_selected_item rrd_function_available host item) := by
  obtain ⟨name, df⟩ := item
  obtain ⟨dhost, host_uuid, path, function, status, type, cmds, source_type, source, sync,
    user_disabled, restart_required, plugin_rejected, payload, saves, created_ut,
    modified_ut⟩ := df
  unfold dyncfg_tree_select dyncfg_selected dyncfg_selected_item dyncfg_belongs
    dyncfg_rendered_status
  simp only []
  cases dhost with
  | none =>
    by_cases hu : host_uuid = host.host_uuid <;>
      by_cases hp : parent.data <+: path.data <;>
      cases ha : rrd_function_available host function <;>
      simp [uuid_memcmp_eq_zero, strncmp_eq_zero, hu, hp, ha]
  | some d =>
    by_cases hd : d = host.addr <;>
      by_cases hp : parent.data <+: path.data <;>
      cases ha : rrd_function_available host function <;>
      simp [uuid_memcmp_eq_zero, strncmp_eq_zero, hd, hp, ha]

theorem dyncfg_tree_items_eq (rrd_function_available : RRDHOST → String → Bool)
    (host : RRDHOST) (parent : String) (nodes : List DICTIONARY_ITEM) :
    dyncfg_tree_items rrd_function_available host parent nodes =
      (nodes.filter (dyncfg_selected host parent)).map
        (dyncfg_selected_item rrd_function_available host) := by
  induction nodes with
  | nil => rfl
  | cons item rest ih =>
    obtain ⟨h1, h2⟩ := dyncfg_tree_select_eq rrd_function_available host parent item
    simp only [dyncfg_tree_items, h1, List.filter_cons]
    by_cases hsel : dyncfg_selected host parent item = true
    · simp [hsel, h2 hsel, ih]
    · simp [hsel, ih]

theorem dyncfg_tree_sorted_perm (rrd_function_available : RRDHOST → String → Bool)
    (nodes : List DICTIONARY_ITEM) (host : RRDHOST) (parent : String) :
    (dyncfg_tree_sorted rrd_function_available nodes host parent).Perm
      ((nodes.filter (dyncfg_selected host parent)).map
        (dyncfg_selected_item rrd_function_available host)) := by
  unfold dyncfg_tree_sorted
  rw [← dyncfg_tree_items_eq]
  exact qsort_perm _

/-! ## The path objects -/

theorem opened_paths_subset (paths : List String) :
    ∀ (last : Option String) (p : String), p ∈ opened_paths last paths → p ∈ paths := by
  induction paths with
  | nil => intro last p h; simp [opened_paths] at h
  | cons q rest ih =>
    intro last p h
    simp only [opened_paths, List.mem_append] at h
    rcases h with h | h
    · split_ifs at h
      · rw [List.mem_singleton] at h
        rw [h]; exact List.mem_cons_self _ _
      · cases h
    · exact List.mem_cons_of_mem _ (ih _ _ h)

theorem opened_paths_complete (paths : List String) :
    ∀ (last : Option String) (p : String), p ∈ paths →
      p ∈ opened_paths last paths ∨ some p = last := by
  induction paths with
  | nil => intro last p h; cases h
  | cons q rest ih =>
    intro last p h
    have hq : q ∈ opened_paths last (q :: rest) ∨ some q = last := by
      by_cases hl : some q = last
      · right; exact hl
      · left; simp [opened_paths, hl]
    rcases List.mem_cons.mp h with rfl | h
    · exact hq
    · rcases ih (some q) p h with h2 | h2
      · left; simp only [opened_paths, List.mem_append]; right; exact h2
      · have : p = q := Option.some.inj h2
        rw [this]; exact hq

theorem opened_paths_sorted (paths : List String) :
    ∀ (last : Option String), paths.Pairwise (fun a b => strcmp a b ≤ 0) →
      (∀ l, last = some l → ∀ p ∈ paths, strcmp l p ≤ 0) →
      (opened_paths last paths).Nodup ∧
      (∀ l, last = some l → ∀ k ∈ opened_paths last paths, strcmp l k < 0) := by
  induction paths with
  | nil => intro last _ _; simp [opened_paths]
  | cons q rest ih =>
    intro last hsorted hlast
    rw [List.pairwise_cons] at hsorted
    obtain ⟨hq, hrest⟩ := hsorted
    obtain ⟨hnd, hgt⟩ := ih (some q) hrest (fun l hl p hp => by
      have : q = l := Option.some.inj hl
      rw [← this]; exact hq p hp)
    have hlt : ∀ k ∈ opened_paths (some q) rest, strcmp q k < 0 := hgt q rfl
    constructor
    · simp only [opened_paths]
      by_cases hl : some q = last
      · rw [if_neg (not_not.mpr hl), List.nil_append]
        exact hnd
      · simp only [ne_eq, hl, not_false_eq_true, if_true, List.singleton_append,
          List.nodup_cons]
        refine ⟨?_, hnd⟩
        intro hmem
        have := hlt q hmem
        rw [(strcmp_eq_zero q q).mpr rfl] at this
        omega
    · intro l hl k hk
      simp only [opened_paths, List.mem_append] at hk
      have hlq : strcmp l q ≤ 0 := hlast l hl q (List.mem_cons_self _ _)
      rcases hk with hk | hk
      · by_cases hne : some q = last
        · simp [hne] at hk
        · simp only [ne_eq, hne, not_false_eq_true, if_true, List.mem_singleton] at hk
          subst hk
          have hnz : strcmp l k ≠ 0 := by
            intro h0
            apply hne
            rw [hl, (strcmp_eq_zero _ _).mp h0]
          omega
      · have h1 := hlt k hk
        by_contra hnot
        have hkl : strcmp k l ≤ 0 := by
          rw [strcmp_neg l k]; omega
        have hkq := strcmp_trans k l q hkl hlq
        rw [strcmp_neg q k] at hkq
        omega

/-! ## The snapshot -/

theorem foldl_last_path (items : List DICTIONARY_ITEM) :
    ∀ last : Option String, items ≠ [] →
      ∃ q, items.foldl (fun _ item => some item.value.path) last = some q := by
  induction items with
  | nil => intro _ h; exact absurd rfl h
  | cons item rest ih =>
    intro last _
    by_cases hr : rest = []
    · subst hr; exact ⟨item.value.path, rfl⟩
    · exact ih (some item.value.path) hr

theorem dyncfg_tree_sorted_length (rrd_function_available : RRDHOST → String → Bool)
    (nodes : List DICTIONARY_ITEM) (host : RRDHOST) (parent : String) :
    (dyncfg_tree_sorted rrd_function_available nodes host parent).length =
      (dyncfg_tree_items rrd_function_available host parent nodes).length := by
  unfold dyncfg_tree_sorted qsort
  exact List.length_insertionSort _ _

theorem dyncfg_tree_for_host_wb (rrd_function_available : RRDHOST → String → Bool)
    (nodes : List DICTIONARY_ITEM) (host : RRDHOST) (parent : String) (id : Option String) :
    (dyncfg_tree_for_host rrd_function_available nodes host parent id).2 =
      dyncfg_tree_start.wb ++
        dyncfg_tree_loop_calls 0 none
          (dyncfg_tree_sorted rrd_function_available nodes host parent) ++
        (if dyncfg_tree_sorted rrd_function_available nodes host parent ≠ []
          then [JSON_CALL.buffer_json_object_close] else []) ++
        [JSON_CALL.buffer_json_object_close,
         JSON_CALL.buffer_json_member_add_object "attention",
         JSON_CALL.buffer_json_member_add_boolean "degraded"
           (decide (((dyncfg_tree_end rrd_function_available nodes host parent).restart_required
             + (dyncfg_tree_end rrd_function_available nodes host parent).plugin_rejected
             + (dyncfg_tree_end rrd_function_available nodes host parent).status_failed
             + (dyncfg_tree_end rrd_function_available nodes host parent).status_incomplete)
               % 2 ^ 64 > 0)),
         JSON_CALL.buffer_json_member_add_uint64 "restart_required"
           (dyncfg_tree_end rrd_function_available nodes host parent).restart_required,
         JSON_CALL.buffer_json_member_add_uint64 "plugin_rejected"
           (dyncfg_tree_end rrd_function_available nodes host parent).plugin_rejected,
         JSON_CALL.buffer_json_member_add_uint64 "status_failed"
           (dyncfg_tree_end rrd_function_available nodes host parent).status_failed,
         JSON_CALL.buffer_json_member_add_uint64 "status_incomplete"
           (dyncfg_tree_end rrd_function_available nodes host parent).status_incomplete,
         JSON_CALL.buffer_json_object_close,
         JSON_CALL.buffer_json_agents_v2, JSON_CALL.buffer_json_finalize] := by
  have hlen := dyncfg_tree_sorted_length rrd_function_available nodes host parent
  have hwb := dyncfg_tree_loop_wb
    (dyncfg_tree_sorted rrd_function_available nodes host parent) 0 dyncfg_tree_start
  have hne : (dyncfg_tree_items rrd_function_available host parent nodes).length ≠ 0 ↔
      dyncfg_tree_sorted rrd_function_available nodes host parent ≠ [] := by
    rw [← hlen, Ne, List.length_eq_zero]
  show (if (dyncfg_tree_items rrd_function_available host parent nodes).length ≠ 0
      then (dyncfg_tree_end rrd_function_available nodes host parent).wb
        ++ [JSON_CALL.buffer_json_object_close]
      else (dyncfg_tree_end rrd_function_available nodes host parent).wb)
      ++ [JSON_CALL.buffer_json_object_close] ++ _ ++ _ = _
  unfold dyncfg_tree_end at hwb ⊢
  rw [hwb]
  by_cases h : dyncfg_tree_sorted rrd_function_available nodes host parent ≠ []
  · rw [if_pos (hne.mpr h), if_pos h]
    simp only [List.append_assoc, List.cons_append, List.nil_append, List.singleton_append]
    rfl
  · rw [if_neg (fun h2 => h (hne.mp h2)), if_neg h]
    simp only [List.append_assoc, List.cons_append, List.nil_append, List.singleton_append,
      List.append_nil]
    rfl

theorem dyncfg_tree_for_host_read (rrd_function_available : RRDHOST → String → Bool)
    (nodes : List DICTIONARY_ITEM) (host : RRDHOST) (parent : String) (id : Option String) :
    tree_paths (dyncfg_tree_for_host rrd_function_available nodes host parent id).2 =
      opened_paths none ((dyncfg_tree_sorted rrd_function_available nodes host parent).map
        (fun item => item.value.path)) ∧
    tree_paths_closed (dyncfg_tree_for_host rrd_function_available nodes host parent id).2 =
      (opened_paths none ((dyncfg_tree_sorted rrd_function_available nodes host parent).map
        (fun item => item.value.path))).length ∧
    tree_entries (dyncfg_tree_for_host rrd_function_available nodes host parent id).2 =
      (dyncfg_tree_sorted rrd_function_available nodes host parent).map
        (fun item => (item.value.path, item.name)) ∧
    tree_node_strings "status"
        (dyncfg_tree_for_host rrd_function_available nodes host parent id).2 =
      (dyncfg_tree_sorted rrd_function_available nodes host parent).map
        (fun item =>
          (item.value.path, item.name, JSON_STRING.dyncfg_id2status item.value.status)) ∧
    tree_node_booleans "plugin_rejected"
        (dyncfg_tree_for_host rrd_function_available nodes host parent id).2 =
      (dyncfg_tree_sorted rrd_function_available nodes host parent).map
        (fun item => (item.value.path, item.name, item.value.restart_required)) ∧
    attention_members (dyncfg_tree_for_host rrd_function_available nodes host parent id).2 =
      [JSON_CALL.buffer_json_member_add_boolean "degraded"
         (decide (((dyncfg_tree_end rrd_function_available nodes host parent).restart_required
           + (dyncfg_tree_end rrd_function_available nodes host parent).plugin_rejected
           + (dyncfg_tree_end rrd_function_available nodes host parent).status_failed
           + (dyncfg_tree_end rrd_function_available nodes host parent).status_incomplete)
             % 2 ^ 64 > 0)),
       JSON_CALL.buffer_json_member_add_uint64 "restart_required"
         (dyncfg_tree_end rrd_function_available nodes host parent).restart_required,
       JSON_CALL.buffer_json_member_add_uint64 "plugin_rejected"
         (dyncfg_tree_end rrd_function_available nodes host parent).plugin_rejected,
       JSON_CALL.buffer_json_member_add_uint64 "status_failed"
         (dyncfg_tree_end rrd_function_available nodes host parent).status_failed,
       JSON_CALL.buffer_json_member_add_uint64 "status_incomplete"
         (dyncfg_tree_end rrd_function_available nodes host parent).status_incomplete] := by
  rw [dyncfg_tree_for_host_wb]
  generalize dyncfg_tree_sorted rrd_function_available nodes host parent = sorted
  generalize dyncfg_tree_end rrd_function_available nodes host parent = st
  obtain ⟨hw, hs⟩ := dyncfg_tree_loop_walk_eq sorted 0 none (by simp)
  obtain ⟨p1, p2, p3, p4, _, p6⟩ := loop_walk_projections sorted 0 none
  have hc := loop_walk_closes sorted 0 none (by simp)
  have hstart : json_walk [] dyncfg_tree_start.wb =
      [([], JSON_CALL.buffer_flush), ([], JSON_CALL.buffer_json_init),
       ([], JSON_CALL.buffer_json_member_add_uint64 "version" 1),
       ([], JSON_CALL.buffer_json_member_add_object "tree")] := rfl
  have hstack : dyncfg_tree_start.wb.foldl json_stack_step [] = tree_stack none := rfl
  have hclosing : ∃ closing : List (List String × JSON_CALL),
      json_walk (tree_stack (sorted.foldl (fun _ item => some item.value.path) none))
        (if sorted ≠ [] then [JSON_CALL.buffer_json_object_close] else []) = closing ∧
      (if sorted ≠ [] then [JSON_CALL.buffer_json_object_close] else []).foldl json_stack_step
        (tree_stack (sorted.foldl (fun _ item => some item.value.path) none)) = ["tree"] ∧
      closing.filterMap path_key_of = [] ∧ closing.filterMap entry_of = [] ∧
      closing.filterMap (node_string_of "status") = [] ∧
      closing.filterMap (node_boolean_of "plugin_rejected") = [] ∧
      closing.filterMap attention_of = [] ∧
      (closing.filter path_close_of).length = (if sorted ≠ [] then 1 else 0) := by
    by_cases h : sorted = []
    · subst h
      refine ⟨[], ?_⟩
      simp [json_walk, tree_stack]
    · obtain ⟨q, hq⟩ := foldl_last_path sorted none h
      refine ⟨[([q, "tree"], JSON_CALL.buffer_json_object_close)], ?_⟩
      rw [hq]
      simp [h, json_walk, tree_stack, json_stack_step, path_key_of, entry_of, node_string_of,
        node_boolean_of, attention_of, path_close_of]
  obtain ⟨closing, c0, c1, c2, c3, c4, c5, c6, c7⟩ := hclosing
  have hwalk : json_walk []
      (dyncfg_tree_start.wb ++ dyncfg_tree_loop_calls 0 none sorted ++
        (if sorted ≠ [] then [JSON_CALL.buffer_json_object_close] else []) ++
        [JSON_CALL.buffer_json_object_close,
         JSON_CALL.buffer_json_member_add_object "attention",
         JSON_CALL.buffer_json_member_add_boolean "degraded"
           (decide ((st.restart_required + st.plugin_rejected + st.status_failed
             + st.status_incomplete) % 2 ^ 64 > 0)),
         JSON_CALL.buffer_json_member_add_uint64 "restart_required" st.restart_required,
         JSON_CALL.buffer_json_member_add_uint64 "plugin_rejected" st.plugin_rejected,
         JSON_CALL.buffer_json_member_add_uint64 "status_failed" st.status_failed,
         JSON_CALL.buffer_json_member_add_uint64 "status_incomplete" st.status_incomplete,
         JSON_CALL.buffer_json_object_close,
         JSON_CALL.buffer_json_agents_v2, JSON_CALL.buffer_json_finalize]) =
      [([], JSON_CALL.buffer_flush), ([], JSON_CALL.buffer_json_init),
       ([], JSON_CALL.buffer_json_member_add_uint64 "version" 1),
       ([], JSON_CALL.buffer_json_member_add_object "tree")] ++
      dyncfg_tree_loop_walk 0 none sorted ++ closing ++
      [(["tree"], JSON_CALL.buffer_json_object_close),
       ([], JSON_CALL.buffer_json_member_add_object "attention"),
       (["attention"], JSON_CALL.buffer_json_member_add_boolean "degraded"
           (decide ((st.restart_required + st.plugin_rejected + st.status_failed
             + st.status_incomplete) % 2 ^ 64 > 0))),
       (["attention"],
         JSON_CALL.buffer_json_member_add_uint64 "restart_required" st.restart_required),
       (["attention"],
         JSON_CALL.buffer_json_member_add_uint64 "plugin_rejected" st.plugin_rejected),
       (["attention"],
         JSON_CALL.buffer_json_member_add_uint64 "status_failed" st.status_failed),
       (["attention"],
         JSON_CALL.buffer_json_member_add_uint64 "status_incomplete" st.status_incomplete),
       (["attention"], JSON_CALL.buffer_json_object_close),
       ([], JSON_CALL.buffer_json_agents_v2), ([], JSON_CALL.buffer_json_finalize)] := by
    simp only [json_walk_append, List.foldl_append, hstart, hstack, hw, hs, c0, c1]
    rfl
  unfold tree_paths tree_paths_closed tree_entries tree_node_strings tree_node_booleans
    attention_members
  rw [hwalk]
  simp only [List.filterMap_append, List.filter_append, List.length_append, p1, p2, p3, p4,
    p6, c2, c3, c4, c5, c6, c7]
  have hc2 : ((dyncfg_tree_loop_walk 0 none sorted).filter path_close_of).length
      + (if sorted ≠ [] then 1 else 0)
      = (opened_paths none (sorted.map (fun item => item.value.path))).length := by
    rw [← hc]; simp
  refine ⟨?_, ?_, ?_, ?_, ?_, ?_⟩
  · simp [path_key_of]
  · rw [← hc2]
    simp [path_close_of]
  · simp [entry_of]
  · simp [node_string_of]
  · simp [node_boolean_of]
  · simp [attention_of]

theorem mod_count_small {α : Type} (M : Nat) (p : α → Bool) (items : List α)
    (h : (items.filter p).length < M) :
    (items.foldl (fun acc item => if p item = true then (acc + 1) % M else acc) 0)
      = (items.filter p).length := by
  rw [mod_count]
  by_cases h0 : (items.filter p).length = 0
  · simp [h0]
  · rw [if_neg h0, Nat.zero_add, Nat.mod_eq_of_lt h]

theorem dyncfg_tree_end_counters (rrd_function_available : RRDHOST → String → Bool)
    (nodes : List DICTIONARY_ITEM) (host : RRDHOST) (parent : String)
    (hlen : nodes.length < 2 ^ 61) :
    (dyncfg_tree_end rrd_function_available nodes host parent).restart_required =
      attention_count (fun df => df.restart_required)
        (dyncfg_tree_rendered rrd_function_available nodes host parent) ∧
    (dyncfg_tree_end rrd_function_available nodes host parent).plugin_rejected =
      attention_count (fun df => df.plugin_rejected)
        (dyncfg_tree_rendered rrd_function_available nodes host parent) ∧
    (dyncfg_tree_end rrd_function_available nodes host parent).status_failed =
      attention_count (fun df => decide (df.status = DYNCFG_STATUS.FAILED))
        (dyncfg_tree_rendered rrd_function_available nodes host parent) ∧
    (dyncfg_tree_end rrd_function_available nodes host parent).status_incomplete =
      attention_count (fun df => decide (df.status = DYNCFG_STATUS.INCOMPLETE))
        (dyncfg_tree_rendered rrd_function_available nodes host parent) ∧
    (∀ p : DYNCFG → Bool,
      attention_count p (dyncfg_tree_rendered rrd_function_available nodes host parent)
        ≤ nodes.length) := by
  have hperm := dyncfg_tree_sorted_perm rrd_function_available nodes host parent
  have hbound : ∀ p : DYNCFG → Bool,
      attention_count p (dyncfg_tree_rendered rrd_function_available nodes host parent)
        ≤ nodes.length := by
    intro p
    unfold attention_count dyncfg_tree_rendered
    refine le_trans (List.length_filter_le _ _) ?_
    rw [List.length_map]
    exact List.length_filter_le _ _
  have hcount : ∀ p : DYNCFG → Bool,
      ((dyncfg_tree_sorted rrd_function_available nodes host parent).filter
        (fun item => decide (item.value.status ≠ DYNCFG_STATUS.ORPHAN) && p item.value)).length
      = attention_count p (dyncfg_tree_rendered rrd_function_available nodes host parent) := by
    intro p
    unfold attention_count dyncfg_tree_rendered
    exact (hperm.filter _).length_eq
  have hM : nodes.length < 2 ^ 64 :=
    lt_trans hlen (Nat.pow_lt_pow_right (by decide) (by decide))
  obtain ⟨k1, k2, k3, k4⟩ := dyncfg_tree_loop_counters
    (dyncfg_tree_sorted rrd_function_available nodes host parent) 0 dyncfg_tree_start
  unfold dyncfg_tree_end
  refine ⟨?_, ?_, ?_, ?_, hbound⟩
  · rw [k1]
    have h := mod_count_small (2 ^ 64)
      (fun item : DICTIONARY_ITEM =>
        decide (item.value.status ≠ DYNCFG_STATUS.ORPHAN) && item.value.restart_required)
      (dyncfg_tree_sorted rrd_function_available nodes host parent)
      (by rw [hcount (fun df => df.restart_required)]; exact lt_of_le_of_lt (hbound _) hM)
    rw [← hcount (fun df => df.restart_required)]
    exact h
  · rw [k2]
    have h := mod_count_small (2 ^ 64)
      (fun item : DICTIONARY_ITEM =>
        decide (item.value.status ≠ DYNCFG_STATUS.ORPHAN) && item.value.plugin_rejected)
      (dyncfg_tree_sorted rrd_function_available nodes host parent)
      (by rw [hcount (fun df => df.plugin_rejected)]; exact lt_of_le_of_lt (hbound _) hM)
    rw [← hcount (fun df => df.plugin_rejected)]
    exact h
  · rw [k3]
    have h := mod_count_small (2 ^ 64)
      (fun item : DICTIONARY_ITEM =>
        decide (item.value.status ≠ DYNCFG_STATUS.ORPHAN) &&
          decide (item.value.status = DYNCFG_STATUS.FAILED))
      (dyncfg_tree_sorted rrd_function_available nodes host parent)
      (by rw [hcount (fun df => decide (df.status = DYNCFG_STATUS.FAILED))]
          exact lt_of_le_of_lt (hbound _) hM)
    rw [← hcount (fun df => decide (df.status = DYNCFG_STATUS.FAILED))]
    exact h
  · rw [k4]
    have h := mod_count_small (2 ^ 64)
      (fun item : DICTIONARY_ITEM =>
        decide (item.value.status ≠ DYNCFG_STATUS.ORPHAN) &&
          decide (item.value.status = DYNCFG_STATUS.INCOMPLETE))
      (dyncfg_tree_sorted rrd_function_available nodes host parent)
      (by rw [hcount (fun df => decide (df.status = DYNCFG_STATUS.INCOMPLETE))]
          exact lt_of_le_of_lt (hbound _) hM)
    rw [← hcount (fun df => decide (df.status = DYNCFG_STATUS.INCOMPLETE))]
    exact h

/-! ## The claims on the snapshot -/

/-- C9, at the failing input: the member `plugin_rejected` of the descriptor is
written from the flag `restart_required`. For every node the two members are
equal to `restart_required`, and a node with `plugin_rejected` set and
`restart_required` clear is rendered with `plugin_rejected` false. -/
theorem dyncfg_to_json_plugin_rejected_alias :
    (∀ (df : DYNCFG) (id : String),
      descriptor_booleans "plugin_rejected" (dyncfg_to_json df id) = [df.restart_required] ∧
      descriptor_booleans "restart_required" (dyncfg_to_json df id) = [df.restart_required]) ∧
    (sample_node "/collectors/cpu" "cpu" (.OTHER 2) false true).plugin_rejected = true ∧
    descriptor_booleans "plugin_rejected"
      (dyncfg_to_json (sample_node "/collectors/cpu" "cpu" (.OTHER 2) false true) "cpu.1")
      = [false] := by
  refine ⟨?_, rfl, by decide⟩
  intro df id
  unfold descriptor_booleans dyncfg_to_json
  cases df.payload with
  | none => simp [json_walk, json_stack_step]
  | some p => by_cases h : p.len = 0 <;> simp [json_walk, json_stack_step, h]

/-- C3, at the failing input: the id handed to dyncfg_tree_for_host is not read.
The result is the same for every id, and on the dictionary with `mem.1` and
`cpu.1` the tree asked for the id `cpu.1` also holds the node `mem.1`. -/
theorem dyncfg_tree_for_host_ignores_id :
    (∀ (rrd_function_available : RRDHOST → String → Bool) (nodes : List DICTIONARY_ITEM)
      (host : RRDHOST) (parent : String) (id : Option String),
      dyncfg_tree_for_host rrd_function_available nodes host parent id =
        dyncfg_tree_for_host rrd_function_available nodes host parent none) ∧
    sample_valid_id "cpu.1" = true ∧
    tree_entries
      (dyncfg_tree_for_host sample_available sample_nodes sample_host "/collectors"
        (some "cpu.1")).2
      = [("/collectors/cpu", "cpu.1"), ("/collectors/mem", "mem.1")] := by
  refine ⟨fun _ _ _ _ _ => rfl, by decide, by decide⟩

/-- C4: the selection of dyncfg_tree_for_host when no id is given. The nodes of
the tree, each under the key of its path and the key of its id, are the nodes
of the dictionary that belong to the host (host pointer equal, or host pointer
NULL and host UUID equal) and whose path starts with the characters of the
root path, each once. Whether the function of a node is available plays no
part in this: two availability tests give the same nodes. A selected node is
written with the status orphan when its function is not available and with its
stored status when it is. -/
theorem dyncfg_tree_for_host_selection (rrd_function_available : RRDHOST → String → Bool)
    (nodes : List DICTIONARY_ITEM) (host : RRDHOST) (parent : String) :
    (tree_entries (dyncfg_tree_for_host rrd_function_available nodes host parent none).2).Perm
      ((nodes.filter (dyncfg_selected host parent)).map
        (fun item => (item.value.path, item.name))) ∧
    (∀ item : DICTIONARY_ITEM, dyncfg_selected host parent item = true ↔
      ((item.value.host = some host.addr ∨
          (item.value.host = none ∧ item.value.host_uuid = host.host_uuid)) ∧
        parent.data <+: item.value.path.data)) ∧
    (∀ other_available : RRDHOST → String → Bool,
      (tree_entries (dyncfg_tree_for_host rrd_function_available nodes host parent none).2).Perm
        (tree_entries (dyncfg_tree_for_host other_available nodes host parent none).2)) ∧
    (tree_node_strings "status"
        (dyncfg_tree_for_host rrd_function_available nodes host parent none).2).Perm
      ((nodes.filter (dyncfg_selected host parent)).map
        (fun item => (item.value.path, item.name,
          JSON_STRING.dyncfg_id2status
            (if rrd_function_available host item.value.function = true then item.value.status
              else DYNCFG_STATUS.ORPHAN)))) := by
  have hentries : ∀ avail : RRDHOST → String → Bool,
      (tree_entries (dyncfg_tree_for_host avail nodes host parent none).2).Perm
        ((nodes.filter (dyncfg_selected host parent)).map
          (fun item => (item.value.path, item.name))) := by
    intro avail
    obtain ⟨_, _, h3, _⟩ := dyncfg_tree_for_host_read avail nodes host parent none
    rw [h3]
    have hp := (dyncfg_tree_sorted_perm avail nodes host parent).map
      (fun item => (item.value.path, item.name))
    rw [List.map_map] at hp
    exact hp
  refine ⟨hentries _, ?_, ?_, ?_⟩
  · intro item
    simp [dyncfg_selected, dyncfg_belongs]
  · intro other
    exact (hentries _).trans (hentries other).symm
  · obtain ⟨_, _, _, h4, _⟩ :=
      dyncfg_tree_for_host_read rrd_function_available nodes host parent none
    rw [h4]
    have hp := (dyncfg_tree_sorted_perm rrd_function_available nodes host parent).map
      (fun item => (item.value.path, item.name,
        JSON_STRING.dyncfg_id2status item.value.status))
    rw [List.map_map] at hp
    exact hp

theorem attention_count_pos (p : DYNCFG → Bool) (items : List DICTIONARY_ITEM) :
    0 < attention_count p items ↔
      ∃ item ∈ items, item.value.status ≠ DYNCFG_STATUS.ORPHAN ∧ p item.value = true := by
  unfold attention_count
  rw [List.length_pos, Ne, List.filter_eq_nil_iff]
  simp

/-- C6, counterexample: a selected node that is flagged restart-required and
rejected and whose stored status is failed, but whose function is not
available, is counted nowhere: the four counters are 0 and `degraded` is
false, although one selected node has each of the two flags. -/
theorem attention_skips_orphans :
    (sample_orphan_nodes.filter (fun item =>
      dyncfg_selected sample_host "/collectors" item && item.value.restart_required)).length
      = 1 ∧
    (sample_orphan_nodes.filter (fun item =>
      dyncfg_selected sample_host "/collectors" item && item.value.plugin_rejected)).length
      = 1 ∧
    attention_members
      (dyncfg_tree_for_host sample_available sample_orphan_nodes sample_host "/collectors"
        none).2 =
      [JSON_CALL.buffer_json_member_add_boolean "degraded" false,
       JSON_CALL.buffer_json_member_add_uint64 "restart_required" 0,
       JSON_CALL.buffer_json_member_add_uint64 "plugin_rejected" 0,
       JSON_CALL.buffer_json_member_add_uint64 "status_failed" 0,
       JSON_CALL.buffer_json_member_add_uint64 "status_incomplete" 0] := by
  decide

/-- C6, amended: the attention block counts the selected nodes that are not
rendered as orphans. For a dictionary of fewer than 2^61 nodes (the array of
pointers to them fits the address space), the members of `attention` are
`degraded` and the four counters, and each counter is the number of selected
nodes whose rendered status is not orphan and that have, respectively, the
flag `restart_required`, the flag `plugin_rejected`, the status failed and the
status incomplete; `degraded` is true exactly when one of these nodes exists;
and `degraded` is false when no selected node is failed, incomplete,
restart-required or rejected. -/
theorem attention_counts (rrd_function_available : RRDHOST → String → Bool)
    (nodes : List DICTIONARY_ITEM) (host : RRDHOST) (parent : String) (id : Option String)
    (hlen : nodes.length < 2 ^ 61) :
    attention_members (dyncfg_tree_for_host rrd_function_available nodes host parent id).2 =
      [JSON_CALL.buffer_json_member_add_boolean "degraded"
         (decide (0 <
           attention_count (fun df => df.restart_required)
             (dyncfg_tree_rendered rrd_function_available nodes host parent)
           + attention_count (fun df => df.plugin_rejected)
             (dyncfg_tree_rendered rrd_function_available nodes host parent)
           + attention_count (fun df => decide (df.status = DYNCFG_STATUS.FAILED))
             (dyncfg_tree_rendered rrd_function_available nodes host parent)
           + attention_count (fun df => decide (df.status = DYNCFG_STATUS.INCOMPLETE))
             (dyncfg_tree_rendered rrd_function_available nodes host parent))),
       JSON_CALL.buffer_json_member_add_uint64 "restart_required"
         (attention_count (fun df => df.restart_required)
           (dyncfg_tree_rendered rrd_function_available nodes host parent)),
       JSON_CALL.buffer_json_member_add_uint64 "plugin_rejected"
         (attention_count (fun df => df.plugin_rejected)
           (dyncfg_tree_rendered rrd_function_available nodes host parent)),
       JSON_CALL.buffer_json_member_add_uint64 "status_failed"
         (attention_count (fun df => decide (df.status = DYNCFG_STATUS.FAILED))
           (dyncfg_tree_rendered rrd_function_available nodes host parent)),
       JSON_CALL.buffer_json_member_add_uint64 "status_incomplete"
         (attention_count (fun df => decide (df.status = DYNCFG_STATUS.INCOMPLETE))
           (dyncfg_tree_rendered rrd_function_available nodes host parent))] ∧
    (JSON_CALL.buffer_json_member_add_boolean "degraded" true ∈
        attention_members (dyncfg_tree_for_host rrd_function_available nodes host parent id).2 ↔
      ∃ item ∈ dyncfg_tree_rendered rrd_function_available nodes host parent,
        item.value.status ≠ DYNCFG_STATUS.ORPHAN ∧
        (item.value.restart_required = true ∨ item.value.plugin_rejected = true ∨
          item.value.status = DYNCFG_STATUS.FAILED ∨
          item.value.status = DYNCFG_STATUS.INCOMPLETE)) ∧
    ((∀ item ∈ nodes, dyncfg_selected host parent item = true →
        item.value.restart_required = false ∧ item.value.plugin_rejected = false ∧
        item.value.status ≠ DYNCFG_STATUS.FAILED ∧
        item.value.status ≠ DYNCFG_STATUS.INCOMPLETE) →
      JSON_CALL.buffer_json_member_add_boolean "degraded" false ∈
        attention_members
          (dyncfg_tree_for_host rrd_function_available nodes host parent id).2) := by
  obtain ⟨_, _, _, _, _, hatt⟩ :=
    dyncfg_tree_for_host_read rrd_function_available nodes host parent id
  obtain ⟨e1, e2, e3, e4, hbound⟩ :=
    dyncfg_tree_end_counters rrd_function_available nodes host parent hlen
  have b1 := hbound (fun df => df.restart_required)
  have b2 := hbound (fun df => df.plugin_rejected)
  have b3 := hbound (fun df => decide (df.status = DYNCFG_STATUS.FAILED))
  have b4 := hbound (fun df => decide (df.status = DYNCFG_STATUS.INCOMPLETE))
  have hpos1 := attention_count_pos (fun df => df.restart_required)
    (dyncfg_tree_rendered rrd_function_available nodes host parent)
  have hpos2 := attention_count_pos (fun df => df.plugin_rejected)
    (dyncfg_tree_rendered rrd_function_available nodes host parent)
  have hpos3 := attention_count_pos (fun df => decide (df.status = DYNCFG_STATUS.FAILED))
    (dyncfg_tree_rendered rrd_function_available nodes host parent)
  have hpos4 := attention_count_pos (fun df => decide (df.status = DYNCFG_STATUS.INCOMPLETE))
    (dyncfg_tree_rendered rrd_function_available nodes host parent)
  rw [hatt, e1, e2, e3, e4]
  generalize attention_count (fun df => df.restart_required)
    (dyncfg_tree_rendered rrd_function_available nodes host parent) = a at *
  generalize attention_count (fun df => df.plugin_rejected)
    (dyncfg_tree_rendered rrd_function_available nodes host parent) = b at *
  generalize attention_count (fun df => decide (df.status = DYNCFG_STATUS.FAILED))
    (dyncfg_tree_rendered rrd_function_available nodes host parent) = c at *
  generalize attention_count (fun df => decide (df.status = DYNCFG_STATUS.INCOMPLETE))
    (dyncfg_tree_rendered rrd_function_available nodes host parent) = d at *
  have hsum : (a + b + c + d) % 2 ^ 64 = a + b + c + d := by
    apply Nat.mod_eq_of_lt
    have h61 : (2 : Nat) ^ 64 = 8 * 2 ^ 61 := by norm_num
    omega
  have hdeg : decide ((a + b + c + d) % 2 ^ 64 > 0) = decide (0 < a + b + c + d) := by
    rw [hsum]
  rw [hdeg]
  have hiff : 0 < a + b + c + d ↔
      ∃ item ∈ dyncfg_tree_rendered rrd_function_available nodes host parent,
        item.value.status ≠ DYNCFG_STATUS.ORPHAN ∧
        (item.value.restart_required = true ∨ item.value.plugin_rejected = true ∨
          item.value.status = DYNCFG_STATUS.FAILED ∨
          item.value.status = DYNCFG_STATUS.INCOMPLETE) := by
    constructor
    · intro hp
      have : 0 < a ∨ 0 < b ∨ 0 < c ∨ 0 < d := by omega
      rcases this with h | h | h | h
      · obtain ⟨item, hm, ho, hf⟩ := hpos1.mp h
        exact ⟨item, hm, ho, Or.inl hf⟩
      · obtain ⟨item, hm, ho, hf⟩ := hpos2.mp h
        exact ⟨item, hm, ho, Or.inr (Or.inl hf)⟩
      · obtain ⟨item, hm, ho, hf⟩ := hpos3.mp h
        exact ⟨item, hm, ho, Or.inr (Or.inr (Or.inl (by simpa using hf)))⟩
      · obtain ⟨item, hm, ho, hf⟩ := hpos4.mp h
        exact ⟨item, hm, ho, Or.inr (Or.inr (Or.inr (by simpa using hf)))⟩
    · rintro ⟨item, hm, ho, hf | hf | hf | hf⟩
      · have := hpos1.mpr ⟨item, hm, ho, hf⟩
        omega
      · have := hpos2.mpr ⟨item, hm, ho, hf⟩
        omega
      · have := hpos3.mpr ⟨item, hm, ho, by simpa using hf⟩
        omega
      · have := hpos4.mpr ⟨item, hm, ho, by simpa using hf⟩
        omega
  refine ⟨rfl, ?_, ?_⟩
  · rw [← hiff]
    simp
  · intro hall
    have hnot : ¬ 0 < a + b + c + d := by
      rw [hiff]
      rintro ⟨item, hm, ho, hf⟩
      unfold dyncfg_tree_rendered at hm
      rw [List.mem_map] at hm
      obtain ⟨node, hnode, rfl⟩ := hm
      rw [List.mem_filter] at hnode
      obtain ⟨h1, h2, h3, h4⟩ := hall node hnode.1 hnode.2
      simp only [dyncfg_selected_item, dyncfg_rendered_status] at ho hf
      by_cases hav : rrd_function_available host node.value.function = true
      · simp [hav, h1, h2, h3, h4] at hf
      · simp [hav] at ho
    simp [hnot]

/-- Witness of C6 on a dictionary with an orphan that carries both flags and a
stored status failed, and an incomplete node rejected by its plugin: only the
second node is counted. -/
theorem attention_counts_witness :
    sample_mixed_nodes.length < 2 ^ 61 ∧
    attention_members
      (dyncfg_tree_for_host sample_available sample_mixed_nodes sample_host "/collectors"
        none).2 =
      [JSON_CALL.buffer_json_member_add_boolean "degraded" true,
       JSON_CALL.buffer_json_member_add_uint64 "restart_required" 0,
       JSON_CALL.buffer_json_member_add_uint64 "plugin_rejected" 1,
       JSON_CALL.buffer_json_member_add_uint64 "status_failed" 0,
       JSON_CALL.buffer_json_member_add_uint64 "status_incomplete" 1] :=
  ⟨by decide,
    (attention_counts sample_available sample_mixed_nodes sample_host "/collectors" none
      (by decide)).1.trans (by decide)⟩

theorem dyncfg_tree_sorted_pairwise (rrd_function_available : RRDHOST → String → Bool)
    (nodes : List DICTIONARY_ITEM) (host : RRDHOST) (parent : String) :
    (dyncfg_tree_sorted rrd_function_available nodes host parent).Pairwise
      (fun a b => dyncfg_tree_compar a b ≤ 0) := by
  unfold dyncfg_tree_sorted
  exact qsort_sorted _

theorem dyncfg_tree_sorted_names (rrd_function_available : RRDHOST → String → Bool)
    (nodes : List DICTIONARY_ITEM) (host : RRDHOST) (parent : String)
    (h : (nodes.map (fun item => item.name)).Nodup) :
    (dyncfg_tree_sorted rrd_function_available nodes host parent).Pairwise
      (fun a b => a.name ≠ b.name) := by
  have hperm := (dyncfg_tree_sorted_perm rrd_function_available nodes host parent).map
    (fun item => item.name)
  rw [List.map_map] at hperm
  have hsub : ((nodes.filter (dyncfg_selected host parent)).map
      ((fun item => item.name) ∘ dyncfg_selected_item rrd_function_available host)).Nodup := by
    have heq : ((fun item : DICTIONARY_ITEM => item.name) ∘
        dyncfg_selected_item rrd_function_available host) = (fun item => item.name) := rfl
    rw [heq]
    exact List.Nodup.sublist ((List.filter_sublist nodes).map _) h
  have hnd := hperm.nodup_iff.mpr hsub
  unfold List.Nodup at hnd
  rw [List.pairwise_map] at hnd
  exact hnd

/-- C5: the order of the snapshot. The comparator returns the comparison of the
paths, and the comparison of the ids when the paths are equal, where a string
compares smaller exactly when it is smaller in the lexicographic order of its
characters; it returns 0 only for equal path and id, changes sign when its
arguments are swapped, and is transitive. In every snapshot the nodes are
written in ascending order of path, then id; the path keys of `tree` are
pairwise different and are exactly the paths of the nodes written; the ids
under a path key are ascending; as many path objects are closed as are
opened; and when the ids of the dictionary are pairwise different the order is
strict. -/
theorem dyncfg_tree_order :
    (∀ a b : DICTIONARY_ITEM, dyncfg_tree_compar a b =
      if strcmp a.value.path b.value.path = 0 then strcmp a.name b.name
      else strcmp a.value.path b.value.path) ∧
    (∀ s t : String, strcmp s t < 0 ↔ s < t) ∧
    (∀ a b : DICTIONARY_ITEM, dyncfg_tree_compar a b = 0 ↔
      (a.value.path = b.value.path ∧ a.name = b.name)) ∧
    (∀ a b : DICTIONARY_ITEM,
      Int.sign (dyncfg_tree_compar a b) = - Int.sign (dyncfg_tree_compar b a)) ∧
    (∀ a b c : DICTIONARY_ITEM, dyncfg_tree_compar a b ≤ 0 → dyncfg_tree_compar b c ≤ 0 →
      dyncfg_tree_compar a c ≤ 0) ∧
    (∀ a b c : DICTIONARY_ITEM, dyncfg_tree_compar a b < 0 → dyncfg_tree_compar b c < 0 →
      dyncfg_tree_compar a c < 0) ∧
    (∀ (rrd_function_available : RRDHOST → String → Bool) (nodes : List DICTIONARY_ITEM)
      (host : RRDHOST) (parent : String) (id : Option String),
      (tree_entries (dyncfg_tree_for_host rrd_function_available nodes host parent id).2).Pairwise
        (fun x y => strcmp x.1 y.1 < 0 ∨ (x.1 = y.1 ∧ strcmp x.2 y.2 ≤ 0)) ∧
      (tree_paths (dyncfg_tree_for_host rrd_function_available nodes host parent id).2).Nodup ∧
      (∀ path : String,
        path ∈ tree_paths (dyncfg_tree_for_host rrd_function_available nodes host parent id).2 ↔
        path ∈ (tree_entries
          (dyncfg_tree_for_host rrd_function_available nodes host parent id).2).map Prod.fst) ∧
      (∀ path : String,
        (((tree_entries
            (dyncfg_tree_for_host rrd_function_available nodes host parent id).2).filter
          (fun e => e.1 == path)).map Prod.snd).Pairwise (fun x y => strcmp x y ≤ 0)) ∧
      (tree_paths (dyncfg_tree_for_host rrd_function_available nodes host parent id).2).length =
        tree_paths_closed (dyncfg_tree_for_host rrd_function_available nodes host parent id).2 ∧
      ((nodes.map (fun item => item.name)).Nodup →
        (tree_entries
          (dyncfg_tree_for_host rrd_function_available nodes host parent id).2).Pairwise
          (fun x y => strcmp x.1 y.1 < 0 ∨ (x.1 = y.1 ∧ strcmp x.2 y.2 < 0)))) := by
  refine ⟨fun _ _ => rfl, strcmp_lt_iff, dyncfg_tree_compar_eq_zero, ?_,
    dyncfg_tree_compar_trans, dyncfg_tree_compar_trans_lt, ?_⟩
  · intro a b
    rw [dyncfg_tree_compar_neg a b, Int.sign_neg, neg_neg]
  · intro rrd_function_available nodes host parent id
    obtain ⟨h1, h2, h3, _⟩ :=
      dyncfg_tree_for_host_read rrd_function_available nodes host parent id
    have hsorted := dyncfg_tree_sorted_pairwise rrd_function_available nodes host parent
    have hstrict := dyncfg_tree_sorted_names rrd_function_available nodes host parent
    rw [h1, h2, h3]
    generalize dyncfg_tree_sorted rrd_function_available nodes host parent = sorted at *
    have hentries : (sorted.map (fun item => (item.value.path, item.name))).Pairwise
        (fun x y => strcmp x.1 y.1 < 0 ∨ (x.1 = y.1 ∧ strcmp x.2 y.2 ≤ 0)) := by
      rw [List.pairwise_map]
      exact hsorted.imp (fun {a b} h => (dyncfg_tree_compar_le a b).mp h)
    have hpaths : (sorted.map (fun item => item.value.path)).Pairwise
        (fun a b => strcmp a b ≤ 0) := by
      rw [List.pairwise_map]
      refine hsorted.imp (fun {a b} h => ?_)
      rcases (dyncfg_tree_compar_le a b).mp h with h | ⟨h, _⟩
      · omega
      · rw [(strcmp_eq_zero _ _).mpr h]
    refine ⟨hentries, ?_, ?_, ?_, rfl, ?_⟩
    · exact (opened_paths_sorted _ none hpaths (fun l hl => by cases hl)).1
    · intro path
      rw [List.map_map]
      constructor
      · intro h
        exact opened_paths_subset _ none path h
      · intro h
        rcases opened_paths_complete _ none path h with h2 | h2
        · exact h2
        · cases h2
    · intro path
      rw [List.pairwise_map]
      refine (hentries.filter _).imp_of_mem ?_
      intro x y hx hy hxy
      rw [List.mem_filter] at hx hy
      have ex : x.1 = path := by simpa using hx.2
      have ey : y.1 = path := by simpa using hy.2
      rcases hxy with h | ⟨_, h⟩
      · rw [ex, ey, (strcmp_eq_zero path path).mpr rfl] at h
        omega
      · exact h
    · intro hnames
      have hnd := hstrict hnames
      rw [List.pairwise_map]
      refine (hsorted.and hnd).imp ?_
      intro a b hab
      obtain ⟨hle, hne⟩ := hab
      rcases (dyncfg_tree_compar_le a b).mp hle with h | ⟨h, h2⟩
      · left; exact h
      · right
        refine ⟨h, ?_⟩
        have : strcmp a.name b.name ≠ 0 := fun h0 => hne ((strcmp_eq_zero _ _).mp h0)
        show strcmp a.name b.name < 0
        omega

/-- Witness of C5 on the dictionary of the scenario of the spec, whose ids are
different: under `/collectors` the tree has the two path keys in ascending
order, each with its node. -/
theorem dyncfg_tree_order_witness :
    (sample_nodes.map (fun item => item.name)).Nodup ∧
    tree_entries (dyncfg_tree_for_host sample_available sample_nodes sample_host
      "/collectors" none).2 = [("/collectors/cpu", "cpu.1"), ("/collectors/mem", "mem.1")] ∧
    tree_paths (dyncfg_tree_for_host sample_available sample_nodes sample_host
      "/collectors" none).2 = ["/collectors/cpu", "/collectors/mem"] ∧
    (tree_entries (dyncfg_tree_for_host sample_available sample_nodes sample_host
      "/collectors" none).2).Pairwise
        (fun x y => strcmp x.1 y.1 < 0 ∨ (x.1 = y.1 ∧ strcmp x.2 y.2 < 0)) :=
  ⟨by decide, by decide, by decide,
    (dyncfg_tree_order.2.2.2.2.2.2 sample_available sample_nodes sample_host
      "/collectors" none).2.2.2.2.2 (by decide)⟩

/-! ## The `config` function -/

theorem uuid_compare_eq_zero (a b : uuid_t) : uuid_compare a b = 0 ↔ a = b := by
  unfold uuid_compare
  rw [uuid_compare_bytes_eq_zero a.val b.val (by rw [a.property, b.property])]
  exact ⟨Subtype.ext, fun h => by rw [h]⟩

theorem find_host_loop_eq (node_uuid : uuid_t) (hosts : List RRDHOST) :
    find_host_loop node_uuid hosts =
      hosts.find? (fun host => decide (host.node_id = some node_uuid)) := by
  induction hosts with
  | nil => rfl
  | cons host next ih =>
    unfold find_host_loop
    cases hn : host.node_id with
    | none => simp [List.find?_cons, hn, ih]
    | some id =>
      by_cases h : id = node_uuid
      · simp [List.find?_cons, hn, h, (uuid_compare_eq_zero _ _).mpr]
      · have hc : ¬ uuid_compare id node_uuid = 0 := fun h0 =>
          h ((uuid_compare_eq_zero _ _).mp h0)
        simp [List.find?_cons, hn, h, hc, ih]

theorem find_host_by_node_id_parsed (stack : uuid_t) (text : String) (u : uuid_t)
    (hosts : List RRDHOST) (h : uuid_parse text = some u) :
    find_host_by_node_id stack none hosts = none ∧
    find_host_by_node_id stack (some text) hosts =
      hosts.find? (fun host => decide (host.node_id = some u)) := by
  refine ⟨rfl, ?_⟩
  unfold find_host_by_node_id
  simp only [h]
  exact find_host_loop_eq u hosts

/-- C8, at the failing input: the identifier `not-a-uuid` does not parse, the
parse result is not looked at, and the lookup returns the host whose node id
equals the bytes that the uninitialised `node_uuid` happens to hold. -/
theorem find_host_by_node_id_unparsed :
    uuid_parse "not-a-uuid" = none ∧
    find_host_by_node_id (uuid_sample 7) (some "not-a-uuid") sample_hosts
      = some { addr := 8192, hostname := "child", host_uuid := uuid_sample 2,
               node_id := some (uuid_sample 7) } := by
  decide

end Netdata
